import Mathlib

/-!
Verification development for the OctWa Intents API settlement engine.

The TypeScript sources are shallowly embedded in Lean:

* JavaScript numbers are modelled as rationals (`ℚ`); IEEE-754 rounding is not
  modelled, so arithmetic statements hold in exact arithmetic.
* `JSON.parse` / `JSON.stringify`, `Buffer` base64/hex codecs, UTF-8
  transcoding and SHA-256 (Node's `createHash('sha256')`) are JavaScript
  runtime primitives, not repository code; they are modelled here directly
  (fuel-based recursion keeps every definition kernel-computable).
  JS `Number`-to-string formatting is modelled exactly for integral values,
  which covers every concrete envelope considered in this development.
* Stateful classes (`PriceOracle`, `IntentStore`, the solver) become pure
  state-passing functions; `Date.now()`, RPC lookups, balance probes, payout
  dispatch results and generated UUIDs become explicit parameters.
-/

namespace OctWa

/- The Batteries rational-number operations are `@[irreducible]`, which
blocks elaborator-side evaluation of concrete rational facts; the kernel
checks such proofs in full either way. -/
attribute [local semireducible] Rat.mul Rat.add Rat.sub Rat.inv Rat.ofScientific

/-! ## JavaScript value model -/

/-- JSON values as produced by `JSON.parse`: objects keep insertion order of
keys (duplicate keys overwrite in place, as in JavaScript). -/
inductive Json where
  | null : Json
  | bool : Bool → Json
  | num : ℚ → Json
  | str : String → Json
  | arr : List Json → Json
  | obj : List (String × Json) → Json

/-- JavaScript truthiness of a JSON value (`undefined` is modelled as
`Option.none` at use sites). -/
def jsTruthy : Json → Bool
  | .null => false
  | .bool b => b
  | .num q => q ≠ 0
  | .str s => s ≠ ""
  | .arr _ => true
  | .obj _ => true

/-- Property access `v.k` on a JSON value: `none` models `undefined`. -/
def jsGet : Json → String → Option Json
  | .obj fields, k => (fields.find? (fun p => p.1 = k)).map (fun p => p.2)
  | _, _ => none

/-- JavaScript `a || b` on an optional property and a fallback value. -/
def jsOr (a : Option Json) (b : Json) : Json :=
  match a with
  | some v => if jsTruthy v then v else b
  | none => b

/-- Insert or overwrite a key in an object's field list, preserving the
position of an existing key (JavaScript duplicate-key semantics). -/
def setKey : List (String × Json) → String → Json → List (String × Json)
  | [], k, v => [(k, v)]
  | (k0, v0) :: rest, k, v =>
    if k0 = k then (k0, v) :: rest else (k0, v0) :: setKey rest k v

/-! ## JSON.parse -/

def isJsonWs (c : Char) : Bool :=
  c = ' ' ∨ c = '\t' ∨ c = '\n' ∨ c = '\r'

def skipWs : List Char → List Char
  | [] => []
  | c :: rest => if isJsonWs c then skipWs rest else c :: rest

def digitVal (c : Char) : Option Nat :=
  if '0' ≤ c ∧ c ≤ '9' then some (c.toNat - 48) else none

def takeDigits : List Char → (List Nat × List Char)
  | [] => ([], [])
  | c :: rest =>
    match digitVal c with
    | some d => let (ds, r) := takeDigits rest; (d :: ds, r)
    | none => ([], c :: rest)

def digitsToNat (ds : List Nat) : Nat :=
  ds.foldl (fun acc d => acc * 10 + d) 0

def hexDigitVal (c : Char) : Option Nat :=
  if '0' ≤ c ∧ c ≤ '9' then some (c.toNat - 48)
  else if 'a' ≤ c ∧ c ≤ 'f' then some (c.toNat - 87)
  else if 'A' ≤ c ∧ c ≤ 'F' then some (c.toNat - 55)
  else none

/-- Decode a single-character JSON escape sequence. -/
def escChar : Char → Option Char
  | '"' => some '"'
  | '\\' => some '\\'
  | '/' => some '/'
  | 'b' => some (Char.ofNat 8)
  | 'f' => some (Char.ofNat 12)
  | 'n' => some '\n'
  | 'r' => some '\r'
  | 't' => some '\t'
  | _ => none

/-- Parse the body of a JSON string literal (the opening quote already
consumed), handling the escape sequences of JSON. `\uXXXX` is decoded as a
unicode scalar; unpaired surrogates are out of scope for the envelopes
considered here. -/
def parseStringBody : List Char → Option (String × List Char)
  | [] => none
  | '"' :: rest => some ("", rest)
  | '\\' :: 'u' :: a :: b :: c :: d :: rest =>
    (match hexDigitVal a, hexDigitVal b, hexDigitVal c, hexDigitVal d with
     | some x, some y, some z, some w =>
       (parseStringBody rest).map
         (fun p => (String.mk [Char.ofNat (x * 4096 + y * 256 + z * 16 + w)] ++ p.1, p.2))
     | _, _, _, _ => none)
  | '\\' :: e :: rest =>
    (escChar e).bind
      (fun ch => (parseStringBody rest).map (fun p => (String.mk [ch] ++ p.1, p.2)))
  | c :: rest =>
    if c.toNat < 32 then none
    else (parseStringBody rest).map (fun p => (String.mk [c] ++ p.1, p.2))

/-- Parse a JSON number (strict JSON grammar: optional minus, integer part
without leading zeros, optional fraction and exponent), as an exact rational. -/
def parseNumber (cs : List Char) : Option (ℚ × List Char) :=
  let (neg, cs1) := match cs with
    | '-' :: rest => (true, rest)
    | _ => (false, cs)
  match takeDigits cs1 with
  | ([], _) => none
  | (intDs, cs2) =>
    if intDs.length > 1 ∧ intDs.headI = 0 then none
    else
      let ipart : ℚ := (digitsToNat intDs : ℚ)
      let (fpart, cs3) : ℚ × List Char := match cs2 with
        | '.' :: rest =>
          match takeDigits rest with
          | ([], _) => (0, '.' :: rest)
          | (fds, r) => ((digitsToNat fds : ℚ) / ((10 : ℚ) ^ fds.length), r)
        | _ => (0, cs2)
      match cs3 with
      | '.' :: _ => none
      | _ =>
        let base : ℚ := ipart + fpart
        let finish : ℚ → List Char → Option (ℚ × List Char) :=
          fun v r => some (if neg then -v else v, r)
        match cs3 with
        | 'e' :: rest | 'E' :: rest =>
          let (eneg, rest1) := match rest with
            | '-' :: r => (true, r)
            | '+' :: r => (false, r)
            | _ => (false, rest)
          match takeDigits rest1 with
          | ([], _) => none
          | (eds, r) =>
            let e := digitsToNat eds
            finish (if eneg then base / ((10 : ℚ) ^ e) else base * ((10 : ℚ) ^ e)) r
        | _ => finish base cs3

mutual

/-- Fuel-based JSON parser (mirrors the recognizing grammar of `JSON.parse`). -/
def parseJsonF : Nat → List Char → Option (Json × List Char)
  | 0, _ => none
  | fuel + 1, cs =>
    match skipWs cs with
    | [] => none
    | '"' :: rest => (parseStringBody rest).map (fun p => (Json.str p.1, p.2))
    | '{' :: rest =>
      (match skipWs rest with
       | '}' :: r2 => some (Json.obj [], r2)
       | r1 => (parseMembersF fuel [] r1).map (fun p => (Json.obj p.1, p.2)))
    | '[' :: rest =>
      (match skipWs rest with
       | ']' :: r2 => some (Json.arr [], r2)
       | r1 => (parseItemsF fuel [] r1).map (fun p => (Json.arr p.1, p.2)))
    | 't' :: 'r' :: 'u' :: 'e' :: rest => some (Json.bool true, rest)
    | 'f' :: 'a' :: 'l' :: 's' :: 'e' :: rest => some (Json.bool false, rest)
    | 'n' :: 'u' :: 'l' :: 'l' :: rest => some (Json.null, rest)
    | rest => (parseNumber rest).map (fun p => (Json.num p.1, p.2))

/-- Parse the members of a JSON object after `{` (accumulator holds members
seen so far, later duplicates overwriting earlier ones in place). -/
def parseMembersF : Nat → List (String × Json) → List Char → Option (List (String × Json) × List Char)
  | 0, _, _ => none
  | fuel + 1, acc, cs =>
    match skipWs cs with
    | '"' :: rest =>
      (parseStringBody rest).bind (fun kp =>
        match skipWs kp.2 with
        | ':' :: r2 =>
          (parseJsonF fuel r2).bind (fun vp =>
            let acc2 := setKey acc kp.1 vp.1
            match skipWs vp.2 with
            | ',' :: r3 => parseMembersF fuel acc2 r3
            | '}' :: r3 => some (acc2, r3)
            | _ => none)
        | _ => none)
    | _ => none

/-- Parse the items of a JSON array after `[`. -/
def parseItemsF : Nat → List Json → List Char → Option (List Json × List Char)
  | 0, _, _ => none
  | fuel + 1, acc, cs =>
    (parseJsonF fuel cs).bind (fun vp =>
      match skipWs vp.2 with
      | ',' :: r2 => parseItemsF fuel (acc ++ [vp.1]) r2
      | ']' :: r2 => some (acc ++ [vp.1], r2)
      | _ => none)

end

/-- Model of `JSON.parse`: `none` models a thrown `SyntaxError`. -/
def jsonParse (s : String) : Option Json :=
  match parseJsonF (s.length * 2 + 8) s.toList with
  | some (v, rest) => if skipWs rest = [] then some v else none
  | none => none

/-! ## JSON.stringify -/

/-- Decimal representation of a natural number (digits, most significant
first). Fuel-based so that it reduces in the kernel. -/
def natDigits : Nat → Nat → List Char
  | 0, _ => []
  | fuel + 1, n =>
    if n < 10 then [Char.ofNat (48 + n)]
    else natDigits fuel (n / 10) ++ [Char.ofNat (48 + n % 10)]

/-- JavaScript `Number` to string conversion, modelled exactly for values
with a finite decimal expansion of at most 20 fractional digits (every
number appearing in the envelopes of this development is integral).
The shortest-round-trip formatting of IEEE-754 doubles is not modelled. -/
def numToString (q : ℚ) : String :=
  let sign := if q < 0 then "-" else ""
  let a : ℚ := |q|
  let ipart : Nat := a.floor.toNat
  let frac : ℚ := a - (ipart : ℚ)
  let istr := String.mk (natDigits (ipart + 1) ipart)
  if frac = 0 then sign ++ istr
  else
    let digits : List Char := (List.range 20).foldl
      (fun st _ =>
        let r : ℚ := st.2 * 10
        let d : Nat := r.floor.toNat
        (st.1 ++ [Char.ofNat (48 + d)], r - (d : ℚ))) (([] : List Char), frac) |>.1
    let trimmed := (digits.reverse.dropWhile (fun c => c = '0')).reverse
    sign ++ istr ++ "." ++ String.mk trimmed

/-- Escape a string as a JSON string literal, as `JSON.stringify` does. -/
def quoteJson (s : String) : String :=
  "\"" ++ String.join (s.toList.map (fun c =>
    if c = '"' then "\\\""
    else if c = '\\' then "\\\\"
    else if c = '\n' then "\\n"
    else if c = '\r' then "\\r"
    else if c = '\t' then "\\t"
    else if c.toNat = 8 then "\\b"
    else if c.toNat = 12 then "\\f"
    else if c.toNat < 32 then
      "\\u00" ++ String.mk [Char.ofNat (48 + c.toNat / 16),
        (if c.toNat % 16 < 10 then Char.ofNat (48 + c.toNat % 16)
         else Char.ofNat (87 + c.toNat % 16))]
    else String.mk [c])) ++ "\""

def joinComma (parts : List String) : String :=
  match parts with
  | [] => ""
  | p :: rest => rest.foldl (fun acc x => acc ++ "," ++ x) p

/-- Fuel-based model of `JSON.stringify` (compact form, no spacing, object
keys in insertion order). -/
def stringifyF : Nat → Json → String
  | 0, _ => ""
  | fuel + 1, j =>
    match j with
    | .null => "null"
    | .bool true => "true"
    | .bool false => "false"
    | .num q => numToString q
    | .str s => quoteJson s
    | .arr xs => "[" ++ joinComma (xs.map (stringifyF fuel)) ++ "]"
    | .obj fs =>
      "\x7b" ++ joinComma (fs.map (fun p => quoteJson p.1 ++ ":" ++ stringifyF fuel p.2)) ++ "\x7d"

/-- Model of `JSON.stringify` (nesting depth of the values in this
development is far below the supplied fuel). -/
def stringify (j : Json) : String := stringifyF 64 j

/-! ## Byte-level codecs (Buffer / TextEncoder) -/

/-- UTF-8 encoding of a string (exact; `TextEncoder.encode`). -/
def charToUtf8 (c : Char) : List Nat :=
  let n := c.toNat
  if n < 128 then [n]
  else if n < 2048 then [192 + n / 64, 128 + n % 64]
  else if n < 65536 then [224 + n / 4096, 128 + (n / 64) % 64, 128 + n % 64]
  else [240 + n / 262144, 128 + (n / 4096) % 64, 128 + (n / 64) % 64, 128 + n % 64]

def strToUtf8 (s : String) : List Nat :=
  s.toList.flatMap charToUtf8

/-- UTF-8 decoding of a byte list (`Buffer.toString('utf8')`); malformed
sequences decode to U+FFFD. Overlong-form rejection is not modelled (the
byte strings this development decodes are well-formed ASCII). -/
def utf8DecodeF : Nat → List Nat → List Char
  | 0, _ => []
  | _, [] => []
  | fuel + 1, b :: rest =>
    if b < 128 then Char.ofNat b :: utf8DecodeF fuel rest
    else if 192 ≤ b ∧ b < 224 then
      match rest with
      | c1 :: rest1 =>
        if 128 ≤ c1 ∧ c1 < 192 then
          Char.ofNat ((b - 192) * 64 + (c1 - 128)) :: utf8DecodeF fuel rest1
        else Char.ofNat 65533 :: utf8DecodeF fuel rest
      | [] => [Char.ofNat 65533]
    else if 224 ≤ b ∧ b < 240 then
      match rest with
      | c1 :: c2 :: rest1 =>
        if (128 ≤ c1 ∧ c1 < 192) ∧ (128 ≤ c2 ∧ c2 < 192) then
          Char.ofNat ((b - 224) * 4096 + (c1 - 128) * 64 + (c2 - 128)) :: utf8DecodeF fuel rest1
        else Char.ofNat 65533 :: utf8DecodeF fuel rest
      | _ => [Char.ofNat 65533]
    else if 240 ≤ b ∧ b < 248 then
      match rest with
      | c1 :: c2 :: c3 :: rest1 =>
        if (128 ≤ c1 ∧ c1 < 192) ∧ (128 ≤ c2 ∧ c2 < 192) ∧ (128 ≤ c3 ∧ c3 < 192) then
          Char.ofNat ((b - 240) * 262144 + (c1 - 128) * 4096 + (c2 - 128) * 64 + (c3 - 128))
            :: utf8DecodeF fuel rest1
        else Char.ofNat 65533 :: utf8DecodeF fuel rest
      | _ => [Char.ofNat 65533]
    else Char.ofNat 65533 :: utf8DecodeF fuel rest

def utf8ToStr (bs : List Nat) : String :=
  String.mk (utf8DecodeF (bs.length + 1) bs)

/-- Base64 alphabet value of a character. -/
def b64Val (c : Char) : Option Nat :=
  if 'A' ≤ c ∧ c ≤ 'Z' then some (c.toNat - 65)
  else if 'a' ≤ c ∧ c ≤ 'z' then some (c.toNat - 97 + 26)
  else if '0' ≤ c ∧ c ≤ '9' then some (c.toNat - 48 + 52)
  else if c = '+' then some 62
  else if c = '/' then some 63
  else none

/-- Collect the 6-bit values of a base64 string, skipping characters outside
the alphabet and stopping at the first `=` (Node `Buffer.from(s, 'base64')`
is lenient in exactly this way). -/
def b64Values : List Char → List Nat
  | [] => []
  | '=' :: _ => []
  | c :: rest =>
    match b64Val c with
    | some v => v :: b64Values rest
    | none => b64Values rest

/-- Reassemble bytes from 6-bit groups; trailing slack bits are dropped. -/
def b64Bytes : List Nat → List Nat
  | v1 :: v2 :: v3 :: v4 :: rest =>
    (v1 * 4 + v2 / 16) :: ((v2 % 16) * 16 + v3 / 4) :: ((v3 % 4) * 64 + v4) :: b64Bytes rest
  | [v1, v2] => [v1 * 4 + v2 / 16]
  | [v1, v2, v3] => [v1 * 4 + v2 / 16, (v2 % 16) * 16 + v3 / 4]
  | _ => []

/-- Model of `Buffer.from(s, 'base64')`. -/
def b64Decode (s : String) : List Nat :=
  b64Bytes (b64Values s.toList)

/-- Model of `Buffer.from(s, 'hex')`: decodes hex pairs and, like Node,
truncates at the first invalid pair or odd leftover character. -/
def hexDecodeChars : List Char → List Nat
  | a :: b :: rest =>
    (match hexDigitVal a, hexDigitVal b with
     | some x, some y => (x * 16 + y) :: hexDecodeChars rest
     | _, _ => [])
  | _ => []

def hexDecode (s : String) : List Nat :=
  hexDecodeChars s.toList

/-! ## SHA-256 (Node `createHash('sha256')`) -/

def M32 : Nat := 4294967296

def rotr32 (n x : Nat) : Nat :=
  ((x >>> n) ||| ((x % (2 ^ n)) <<< (32 - n))) % M32

def shaK : List Nat :=
  [1116352408, 1899447441, 3049323471, 3921009573, 961987163, 1508970993,
   2453635748, 2870763221, 3624381080, 310598401, 607225278, 1426881987,
   1925078388, 2162078206, 2614888103, 3248222580, 3835390401, 4022224774,
   264347078, 604807628, 770255983, 1249150122, 1555081692, 1996064986,
   2554220882, 2821834349, 2952996808, 3210313671, 3336571891, 3584528711,
   113926993, 338241895, 666307205, 773529912, 1294757372, 1396182291,
   1695183700, 1986661051, 2177026350, 2456956037, 2730485921, 2820302411,
   3259730800, 3345764771, 3516065817, 3600352804, 4094571909, 275423344,
   430227734, 506948616, 659060556, 883997877, 958139571, 1322822218,
   1537002063, 1747873779, 1955562222, 2024104815, 2227730452, 2361852424,
   2428436474, 2756734187, 3204031479, 3329325298]

def shaH0 : List Nat :=
  [1779033703, 3144134277, 1013904242, 2773480762, 1359893119, 2600822924,
   528734635, 1541459225]

def padMessage (msg : List Nat) : List Nat :=
  let len := msg.length
  let bitLen := len * 8
  let zeros := (64 - ((len + 9) % 64)) % 64
  msg ++ [0x80] ++ List.replicate zeros 0 ++
    [(bitLen >>> 56) % 256, (bitLen >>> 48) % 256, (bitLen >>> 40) % 256, (bitLen >>> 32) % 256,
     (bitLen >>> 24) % 256, (bitLen >>> 16) % 256, (bitLen >>> 8) % 256, bitLen % 256]

def bytesToWords : List Nat → List Nat
  | a :: b :: c :: d :: rest => (a * 16777216 + b * 65536 + c * 256 + d) :: bytesToWords rest
  | _ => []

def extendSchedule : Nat → Array Nat → Array Nat
  | 0, w => w
  | fuel + 1, w =>
    let i := w.size
    let w15 := w.getD (i - 15) 0
    let w2 := w.getD (i - 2) 0
    let s0 := (rotr32 7 w15) ^^^ (rotr32 18 w15) ^^^ (w15 >>> 3)
    let s1 := (rotr32 17 w2) ^^^ (rotr32 19 w2) ^^^ (w2 >>> 10)
    extendSchedule fuel (w.push ((w.getD (i - 16) 0 + s0 + w.getD (i - 7) 0 + s1) % M32))

structure ShaRegs where
  a : Nat
  b : Nat
  c : Nat
  d : Nat
  e : Nat
  f : Nat
  g : Nat
  h : Nat

def shaRound (w : Array Nat) (k : List Nat) (r : ShaRegs) (i : Nat) : ShaRegs :=
  let s1 := (rotr32 6 r.e) ^^^ (rotr32 11 r.e) ^^^ (rotr32 25 r.e)
  let ch := (r.e &&& r.f) ^^^ ((M32 - 1 - r.e) &&& r.g)
  let t1 := (r.h + s1 + ch + k.getD i 0 + w.getD i 0) % M32
  let s0 := (rotr32 2 r.a) ^^^ (rotr32 13 r.a) ^^^ (rotr32 22 r.a)
  let maj := (r.a &&& r.b) ^^^ (r.a &&& r.c) ^^^ (r.b &&& r.c)
  let t2 := (s0 + maj) % M32
  ⟨(t1 + t2) % M32, r.a, r.b, r.c, (r.d + t1) % M32, r.e, r.f, r.g⟩

def compressChunk (hs : List Nat) (chunk : List Nat) : List Nat :=
  let w := extendSchedule 48 (bytesToWords chunk).toArray
  let init : ShaRegs := ⟨hs.getD 0 0, hs.getD 1 0, hs.getD 2 0, hs.getD 3 0,
                         hs.getD 4 0, hs.getD 5 0, hs.getD 6 0, hs.getD 7 0⟩
  let fin := (List.range 64).foldl (shaRound w shaK) init
  [(hs.getD 0 0 + fin.a) % M32, (hs.getD 1 0 + fin.b) % M32, (hs.getD 2 0 + fin.c) % M32,
   (hs.getD 3 0 + fin.d) % M32, (hs.getD 4 0 + fin.e) % M32, (hs.getD 5 0 + fin.f) % M32,
   (hs.getD 6 0 + fin.g) % M32, (hs.getD 7 0 + fin.h) % M32]

def processChunks : Nat → List Nat → List Nat → List Nat
  | 0, hs, _ => hs
  | fuel + 1, hs, bytes =>
    if bytes.length < 64 then hs
    else processChunks fuel (compressChunk hs (bytes.take 64)) (bytes.drop 64)

/-- SHA-256 digest (32 bytes) of a byte list. -/
def sha256 (msg : List Nat) : List Nat :=
  let padded := padMessage msg
  let hs := processChunks padded.length shaH0 padded
  hs.flatMap (fun w => [(w >>> 24) % 256, (w >>> 16) % 256, (w >>> 8) % 256, w % 256])

def hexDigitChar (n : Nat) : Char :=
  if n < 10 then Char.ofNat (48 + n) else Char.ofNat (87 + n)

def bytesToHex (bs : List Nat) : String :=
  String.mk (bs.flatMap (fun b => [hexDigitChar (b / 16), hexDigitChar (b % 16)]))

/-- Standard test vector: the implementation of SHA-256 is the real one. -/
example : bytesToHex (sha256 (strToUtf8 "abc")) =
    "ba7816bf8f01cfea414140de5dae2223b00361a396177a9cb410ff61f20015ad" := by
  set_option maxRecDepth 100000 in decide

/-! ## Price oracle (src/oracle.ts)

The `PriceOracle` class becomes a state type plus pure state-passing
functions. `Date.now()` becomes an explicit `now` parameter, `Math.sqrt`
an explicit function parameter `sqrtQ` (exact on the inputs each theorem
supplies it), and the `setTimeout` scheduled by `triggerCircuitBreaker`
becomes the `pendingBreakerReset` field together with the
`fireBreakerReset` transition that models the timer callback firing. -/

inductive SwapDirection where
  | OCT_TO_ETH : SwapDirection
  | ETH_TO_OCT : SwapDirection
deriving DecidableEq

inductive PriceReason where
  | swap : PriceReason
  | initial : PriceReason
  | ema_update : PriceReason
  | circuit_breaker : PriceReason
deriving DecidableEq

structure PriceRecord where
  rate : ℚ
  timestamp : ℚ
  reason : PriceReason
  volume : Option ℚ
  direction : Option SwapDirection
deriving DecidableEq

structure TWAPDataPoint where
  price : ℚ
  timestamp : ℚ
  weight : ℚ
deriving DecidableEq

structure VirtualReserves where
  octReserve : ℚ
  ethReserve : ℚ
  k : ℚ
deriving DecidableEq

structure VolumeEntry where
  timestamp : ℚ
  octAmount : ℚ
  direction : SwapDirection
deriving DecidableEq

structure OracleConfig where
  initialRate : ℚ
  minRate : ℚ
  maxRate : ℚ
  emaAlpha : ℚ
  twapWindowMs : ℚ
  maxPriceChangePercent : ℚ
  feeBps : ℚ
deriving DecidableEq

/-- The `CONFIG` object built from the environment-variable defaults
(initial rate 0.001, bounds 50%–200% of it, EMA alpha 0.1, 15-minute TWAP
window, 10% circuit-breaker threshold, 50 bps fee). -/
def defaultOracleConfig : OracleConfig :=
  { initialRate := 1 / 1000
    minRate := (1 / 1000) * (50 / 100)
    maxRate := (1 / 1000) * (200 / 100)
    emaAlpha := 1 / 10
    twapWindowMs := 15 * 60 * 1000
    maxPriceChangePercent := 10
    feeBps := 50 }

structure OracleState where
  reserves : VirtualReserves
  spotPrice : ℚ
  emaPrice : ℚ
  twapDataPoints : List TWAPDataPoint
  priceHistory : List PriceRecord
  volumeHistory : List VolumeEntry
  circuitBreakerActive : Bool
  lastCircuitBreakerReset : ℚ
  pendingBreakerReset : Option ℚ
deriving DecidableEq

/-- AMM spot price `ethReserve / octReserve`. -/
def calculateSpotPrice (r : VirtualReserves) : ℚ :=
  r.ethReserve / r.octReserve

/-- ETH output for an OCT input under the constant-product formula, minus
the `feeBps/10000` fee, floored at zero (`PriceOracle.calculateEthOut`). -/
def calculateEthOut (s : OracleState) (octAmount : ℚ) (feeBps : ℚ) : ℚ :=
  let newOctReserve := s.reserves.octReserve + octAmount
  let newEthReserve := s.reserves.k / newOctReserve
  let grossEthOut := s.reserves.ethReserve - newEthReserve
  let fee := grossEthOut * (feeBps / 10000)
  let netEthOut := grossEthOut - fee
  max 0 netEthOut

/-- OCT output for an ETH input (`PriceOracle.calculateOctOut`). -/
def calculateOctOut (s : OracleState) (ethAmount : ℚ) (feeBps : ℚ) : ℚ :=
  let newEthReserve := s.reserves.ethReserve + ethAmount
  let newOctReserve := s.reserves.k / newEthReserve
  let grossOctOut := s.reserves.octReserve - newOctReserve
  let fee := grossOctOut * (feeBps / 10000)
  let netOctOut := grossOctOut - fee
  max 0 netOctOut

/-- Time-weighted average over the recorded data points; points with zero
weight are skipped, and with no weighted point the spot price is returned
(`PriceOracle.calculateTWAP`). -/
def calculateTWAP (s : OracleState) : ℚ :=
  if s.twapDataPoints.length = 0 then s.spotPrice
  else
    let totalWeight := (s.twapDataPoints.map (fun dp => if dp.weight > 0 then dp.weight else 0)).sum
    let weightedSum :=
      (s.twapDataPoints.map (fun dp => if dp.weight > 0 then dp.price * dp.weight else 0)).sum
    if totalWeight = 0 then s.spotPrice else weightedSum / totalWeight

/-- Effective price served to quoting callers: TWAP alone while the circuit
breaker is active, otherwise the 70% EMA / 30% TWAP blend
(`PriceOracle.getEffectivePrice`). -/
def getEffectivePrice (s : OracleState) : ℚ :=
  let twap := calculateTWAP s
  if s.circuitBreakerActive then twap
  else s.emaPrice * (7 / 10) + twap * (3 / 10)

/-- EMA step `ema := alpha * spot + (1 - alpha) * ema`
(`PriceOracle.updateEMA`). -/
def updateEMA (cfg : OracleConfig) (s : OracleState) : OracleState :=
  { s with emaPrice := cfg.emaAlpha * s.spotPrice + (1 - cfg.emaAlpha) * s.emaPrice }

/-- Close out the last sample's duration, append the current spot as a new
zero-weight sample, and drop samples older than the window
(`PriceOracle.updateTWAP`). -/
def updateTWAP (cfg : OracleConfig) (s : OracleState) (now : ℚ) : OracleState :=
  let windowStart := now - cfg.twapWindowMs
  let pts : List TWAPDataPoint :=
    match s.twapDataPoints.reverse with
    | [] => []
    | last :: revInit => ({ last with weight := now - last.timestamp } :: revInit).reverse
  let pts2 : List TWAPDataPoint := pts ++ [{ price := s.spotPrice, timestamp := now, weight := 0 }]
  let pts3 : List TWAPDataPoint := pts2.filter (fun dp => dp.timestamp ≥ windowStart)
  let pts4 : List TWAPDataPoint :=
    if pts3.length = 0 then [{ price := s.spotPrice, timestamp := now, weight := 0 }] else pts3
  { s with twapDataPoints := pts4 }

/-- The oracle's `getRate`: refresh the TWAP window, then serve the
effective price (returned together with the mutated state). -/
def getRate (cfg : OracleConfig) (s : OracleState) (now : ℚ) : ℚ × OracleState :=
  let s1 := updateTWAP cfg s now
  (getEffectivePrice s1, s1)

/-- Append a price record and keep only the last 1000 in memory
(`PriceOracle.recordPrice`; the external database append is out of scope). -/
def recordPrice (s : OracleState) (rate : ℚ) (now : ℚ) (reason : PriceReason)
    (volume : Option ℚ) (direction : Option SwapDirection) : OracleState :=
  let h := s.priceHistory ++
    [{ rate := rate, timestamp := now, reason := reason, volume := volume, direction := direction }]
  { s with priceHistory := if h.length > 1000 then h.drop (h.length - 1000) else h }

/-- Activate the circuit breaker: set the flag, remember the reset time,
freeze the spot price at the current (pre-trade) EMA, and schedule the
automatic reset 5 minutes ahead (`PriceOracle.triggerCircuitBreaker`). -/
def triggerCircuitBreaker (s : OracleState) (now : ℚ) : OracleState :=
  { s with
    circuitBreakerActive := true
    lastCircuitBreakerReset := now
    spotPrice := s.emaPrice
    pendingBreakerReset := some (now + 5 * 60 * 1000) }

/-- The `setTimeout` callback scheduled by `triggerCircuitBreaker` firing:
clears the breaker flag. -/
def fireBreakerReset (s : OracleState) : OracleState :=
  { s with circuitBreakerActive := false, pendingBreakerReset := none }

/-- Clamp the spot price (and the EMA) into the configured band; if
clamping changed the spot price, resynthesize the reserves from `k` and the
clamped price (`PriceOracle.applyPriceBounds`; `Math.sqrt` is the supplied
`sqrtQ`). -/
def applyPriceBounds (sqrtQ : ℚ → ℚ) (cfg : OracleConfig) (s : OracleState) : OracleState :=
  let oldPrice := s.spotPrice
  let spot1 :=
    if s.spotPrice < cfg.minRate then cfg.minRate
    else if s.spotPrice > cfg.maxRate then cfg.maxRate
    else s.spotPrice
  let ema1 := max cfg.minRate (min cfg.maxRate s.emaPrice)
  let reserves1 :=
    if spot1 ≠ oldPrice then
      { octReserve := sqrtQ (s.reserves.k / spot1)
        ethReserve := sqrtQ (s.reserves.k * spot1)
        k := s.reserves.k }
    else s.reserves
  { s with spotPrice := spot1, emaPrice := ema1, reserves := reserves1 }

/-- The reserve mutation a recorded swap applies (the direction branch at
the top of `PriceOracle.recordSwap`): input-side reserve grows by the raw
amount, output-side reserve shrinks by the fee-free constant-product
output. -/
def recordSwapReserves (s : OracleState) (direction : SwapDirection) (amount : ℚ) :
    VirtualReserves :=
  match direction with
  | .OCT_TO_ETH =>
    let ethOut := calculateEthOut s amount 0
    { octReserve := s.reserves.octReserve + amount
      ethReserve := s.reserves.ethReserve - ethOut
      k := s.reserves.k }
  | .ETH_TO_OCT =>
    let octOut := calculateOctOut s amount 0
    { octReserve := s.reserves.octReserve - octOut
      ethReserve := s.reserves.ethReserve + amount
      k := s.reserves.k }

/-- Record a completed swap (`PriceOracle.recordSwap`): mutate reserves,
log volume, recompute the spot, evaluate the circuit breaker, update EMA
and TWAP, apply the price bounds, and record the resulting price. -/
def recordSwap (sqrtQ : ℚ → ℚ) (cfg : OracleConfig) (s : OracleState)
    (now : ℚ) (direction : SwapDirection) (amount : ℚ) : OracleState :=
  let oldSpot := s.spotPrice
  let volumeOct :=
    match direction with
    | .OCT_TO_ETH => amount
    | .ETH_TO_OCT => calculateOctOut s amount 0
  let s1 := { s with
    reserves := recordSwapReserves s direction amount
    volumeHistory := s.volumeHistory ++
      ([{ timestamp := now, octAmount := volumeOct, direction := direction }] : List VolumeEntry) }
  let s2 := { s1 with spotPrice := calculateSpotPrice s1.reserves }
  let priceChange := |(s2.spotPrice - oldSpot) / oldSpot| * 100
  let s3 :=
    if priceChange > cfg.maxPriceChangePercent then triggerCircuitBreaker s2 now else s2
  let s4 := updateEMA cfg s3
  let s5 := updateTWAP cfg s4 now
  let s6 := applyPriceBounds sqrtQ cfg s5
  let s7 := recordPrice s6 s6.spotPrice now .swap (some amount) (some direction)
  { s7 with volumeHistory := s7.volumeHistory.filter (fun v => v.timestamp ≥ now - 86400000) }

/-- The constructor's initial oracle state (`new PriceOracle()` with the
default virtual reserves), at construction time `now`. -/
def initialOracleState (octReserve ethReserve : ℚ) (now : ℚ) : OracleState :=
  let reserves : VirtualReserves :=
    { octReserve := octReserve, ethReserve := ethReserve, k := octReserve * ethReserve }
  let spot := calculateSpotPrice reserves
  { reserves := reserves
    spotPrice := spot
    emaPrice := spot
    twapDataPoints := [{ price := spot, timestamp := now, weight := 0 }]
    priceHistory := [{ rate := spot, timestamp := now, reason := .initial,
                       volume := none, direction := none }]
    volumeHistory := []
    circuitBreakerActive := false
    lastCircuitBreakerReset := 0
    pendingBreakerReset := none }

/-! ## Envelope verification (src/crypto.ts) and Octra payload parsing
(src/octra.ts) -/

/-- Truthiness of a possibly-absent property. -/
def jsTruthyOpt : Option Json → Bool
  | some v => jsTruthy v
  | none => false

/-- SHA-256 (hex) of the canonical JSON serialization of a payload value
(`hashPayload` in src/crypto.ts; the payload is whatever object reaches it
at runtime, hence `Json`). -/
def hashPayloadJson (payload : Json) : String :=
  bytesToHex (sha256 (strToUtf8 (stringify payload)))

/-- Hash comparison of `verifyPayloadHash`: the declared hash must be a
string strictly equal to the recomputed hex digest (a non-string declared
hash never compares equal under `===`). -/
def verifyPayloadHashJson (payload : Json) (declared : Json) : Bool :=
  match declared with
  | .str s => hashPayloadJson payload = s
  | _ => false

/-- Append the member only when the property is present (`JSON.stringify`
drops `undefined` members of an object literal). -/
def optMember (payload : Json) (k : String) : List (String × Json) :=
  match jsGet payload k with
  | some v => [(k, v)]
  | none => []

/-- The `fullPayload` object literal rebuilt by `parseAndVerifyEvmEnvelope`
before hashing: `version`/`intentType` are hard-coded, `fromAsset`,
`toAsset` and `targetChain` get `||` defaults, the remaining members are
taken raw from the decoded payload (absent members are dropped by
`JSON.stringify`). -/
def reconstructFullPayload (payload : Json) : Json :=
  Json.obj (
    [("version", Json.num 1),
     ("intentType", Json.str "swap"),
     ("fromAsset", jsOr (jsGet payload "fromAsset") (Json.str "ETH")),
     ("toAsset", jsOr (jsGet payload "toAsset") (Json.str "OCT"))]
    ++ optMember payload "amountIn"
    ++ optMember payload "minAmountOut"
    ++ [("targetChain", jsOr (jsGet payload "targetChain") (Json.str "octra_mainnet"))]
    ++ optMember payload "targetAddress"
    ++ optMember payload "expiry"
    ++ optMember payload "nonce")

/-- `String.prototype.startsWith` over the character list (the library
version is loop-based and opaque to evaluation). -/
def strStartsWith (s pre : String) : Bool :=
  s.toList.take pre.toList.length = pre.toList

/-- ASCII whitespace, the whitespace class the inputs here can contain. -/
def isWsChar (c : Char) : Bool :=
  c = ' ' ∨ c = '\t' ∨ c = '\n' ∨ c = '\r'

/-- `String.prototype.trim` restricted to ASCII whitespace. -/
def strTrim (s : String) : String :=
  String.mk (((s.toList.dropWhile isWsChar).reverse.dropWhile isWsChar).reverse)

/-- Character class of the base64-detection regex `^[A-Za-z0-9+/=]+$`. -/
def isB64AlphaChar (c : Char) : Bool :=
  ('A' ≤ c ∧ c ≤ 'Z') ∨ ('a' ≤ c ∧ c ≤ 'z') ∨ ('0' ≤ c ∧ c ≤ '9') ∨ c = '+' ∨ c = '/' ∨ c = '='

/-- Heuristic encoding detection shared by both envelope decoders: content
that does not start with `{` after trimming and matches the base64
character set is treated as base64. -/
def looksBase64 (t : String) : Bool :=
  (¬ strStartsWith (strTrim t) "\x7b") ∧ (strTrim t).length > 0 ∧
    (strTrim t).toList.all isB64AlphaChar

/-- The decoding stage of `parseAndVerifyEvmEnvelope` after its input
guard: strip `0x`, hex-decode, detect base64 vs raw JSON, and `JSON.parse`
the result; `none` models the `catch` branch. -/
def evmDecodeEnvelope (txInput : String) : Option Json :=
  let hexData := if strStartsWith txInput "0x" then txInput.drop 2 else txInput
  let decodedHex := utf8ToStr (hexDecode hexData)
  if looksBase64 decodedHex then jsonParse (utf8ToStr (b64Decode decodedHex))
  else jsonParse decodedHex

/-- The verified intent data `parseAndVerifyEvmEnvelope` returns.
`targetAddress` is kept as the raw JSON value (the source merely requires
it truthy and type-casts); `minAmountOut` and `expiry` are checked to be
numbers; the nonce is required to be a (non-empty) string — the original
only requires truthiness, and a truthy non-string nonce would fail or
coerce later at the SQLite layer, a corner outside this model. -/
structure EvmIntentData where
  targetAddress : Json
  minAmountOut : ℚ
  expiry : ℚ
  nonce : String

structure EvmVerifyResult where
  valid : Bool
  payload : Option EvmIntentData
  error : Option String

/-- The required-field validation and extraction at the end of
`parseAndVerifyEvmEnvelope`: `targetAddress` truthy, `minAmountOut` and
`expiry` numbers, `nonce` truthy. -/
def evmFieldCheck (payload : Json) : EvmVerifyResult :=
  match jsGet payload "targetAddress", jsGet payload "minAmountOut",
        jsGet payload "expiry", jsGet payload "nonce" with
  | some ta, some (.num mao), some (.num ex), some (.str non) =>
    if jsTruthy ta ∧ non ≠ "" then
      { valid := true, payload := some ⟨ta, mao, ex, non⟩, error := none }
    else { valid := false, payload := none, error := some "Invalid payload structure" }
  | _, _, _, _ => { valid := false, payload := none, error := some "Invalid payload structure" }

/-- Full model of `parseAndVerifyEvmEnvelope` (src/crypto.ts): guard the
raw calldata, decode the envelope, take `envelope.payload || envelope`,
verify the declared hash when one is (truthily) present, then validate the
required fields. -/
def parseAndVerifyEvmEnvelope (txInput : String) : EvmVerifyResult :=
  if txInput = "" ∨ txInput = "0x" ∨ txInput.length < 4 then
    { valid := false, payload := none, error := some "No payload in tx.input" }
  else
    match evmDecodeEnvelope txInput with
    | none => { valid := false, payload := none, error := some "Failed to parse EVM envelope" }
    | some envelope =>
      let payload := jsOr (jsGet envelope "payload") envelope
      let declaredHash := jsGet envelope "hash"
      if jsTruthyOpt declaredHash then
        if verifyPayloadHashJson (reconstructFullPayload payload) (declaredHash.getD .null) then
          evmFieldCheck payload
        else
          { valid := false, payload := none,
            error := some "Payload hash mismatch - data may have been tampered" }
      else evmFieldCheck payload

/-- The canonical swap-intent payload of src/types.ts. Extra fields of a
decoded payload object beyond these ten are not retained (they are never
re-serialized by the engine). -/
structure SwapIntentPayload where
  version : ℚ
  intentType : String
  fromAsset : String
  toAsset : String
  amountIn : ℚ
  minAmountOut : ℚ
  targetChain : String
  targetAddress : String
  expiry : ℚ
  nonce : String
deriving DecidableEq

inductive TxStatus where
  | pending : TxStatus
  | confirmed : TxStatus
  | failed : TxStatus
deriving DecidableEq

def txStatusStr : TxStatus → String
  | .pending => "pending"
  | .confirmed => "confirmed"
  | .failed => "failed"

/-- An Octra transaction as normalized by `fetchOctraTransaction`
(`from` and `to` are Lean keywords, hence `fromAddr`/`toAddr`). -/
structure OctraTransaction where
  hash : String
  fromAddr : String
  toAddr : String
  amount : ℚ
  message : Option String
  status : TxStatus
deriving DecidableEq

/-- A Sepolia transaction as returned by `fetchSepoliaTransaction`.
The source keeps `value` as a decimal wei string and applies `parseFloat`;
the numeric value is modelled directly. -/
structure SepoliaTransaction where
  hash : String
  fromAddr : String
  toAddr : String
  value : ℚ
  status : TxStatus
  input : Option String
deriving DecidableEq

/-- Model of `parseIntentPayload` (src/octra.ts): `JSON.parse` the memo,
take `parsed.payload || parsed`, and validate the strict field typing
(`version === 1`, `intentType === 'swap'`, `fromAsset === 'OCT'`,
`toAsset === 'ETH'`, `targetChain === 'ethereum_sepolia'`, numeric
amounts and expiry, string target address and nonce). No hash
verification is performed on this path. -/
def parseIntentPayload (message : Option String) : Option SwapIntentPayload :=
  match message with
  | none => none
  | some m =>
    match jsonParse m with
    | none => none
    | some parsed =>
      let payload := jsOr (jsGet parsed "payload") parsed
      match jsGet payload "version", jsGet payload "intentType", jsGet payload "fromAsset",
            jsGet payload "toAsset", jsGet payload "amountIn", jsGet payload "minAmountOut",
            jsGet payload "targetChain", jsGet payload "targetAddress", jsGet payload "expiry",
            jsGet payload "nonce" with
      | some (.num v), some (.str it), some (.str fa), some (.str toa), some (.num ai),
        some (.num mao), some (.str tc), some (.str taddr), some (.num ex), some (.str non) =>
        if v = 1 ∧ it = "swap" ∧ fa = "OCT" ∧ toa = "ETH" ∧ tc = "ethereum_sepolia" then
          some ⟨v, it, fa, toa, ai, mao, tc, taddr, ex, non⟩
        else none
      | _, _, _, _, _, _, _, _, _, _ => none

structure ValidationResult where
  valid : Bool
  error : Option String
deriving DecidableEq

def isHexCharStrict (c : Char) : Bool :=
  ('0' ≤ c ∧ c ≤ '9') ∨ ('a' ≤ c ∧ c ≤ 'f') ∨ ('A' ≤ c ∧ c ≤ 'F')

/-- The regex `^0x[a-fA-F0-9]{40}$`. -/
def isEvmAddress (s : String) : Bool :=
  s.length = 42 ∧ strStartsWith s "0x" ∧ (s.drop 2).toList.all isHexCharStrict

/-- Model of `validateIntentPayload` (src/octra.ts): escrow destination,
amount consistency within 1e-6, expiry, and EVM target address format. -/
def validateIntentPayload (payload : SwapIntentPayload) (tx : OctraTransaction)
    (escrowAddress : String) (now : ℚ) : ValidationResult :=
  if tx.toAddr ≠ escrowAddress then
    { valid := false,
      error := some ("Transaction not sent to escrow address. Expected: " ++ escrowAddress
        ++ ", Got: " ++ tx.toAddr) }
  else if |tx.amount - payload.amountIn| > 1 / 1000000 then
    { valid := false,
      error := some ("Transaction amount does not match intent. Expected: "
        ++ numToString payload.amountIn ++ ", Got: " ++ numToString tx.amount) }
  else if now > payload.expiry then
    { valid := false, error := some "Intent has expired" }
  else if ¬ isEvmAddress payload.targetAddress then
    { valid := false, error := some "Invalid target EVM address format" }
  else { valid := true, error := none }

/-! ## Intent store (src/store.ts over src/db.ts) and solver (src/solver.ts) -/

inductive IntentStatus where
  | OPEN : IntentStatus
  | PENDING : IntentStatus
  | FULFILLED : IntentStatus
  | EXPIRED : IntentStatus
  | REJECTED : IntentStatus
  | FAILED : IntentStatus
deriving DecidableEq

structure Intent where
  intentId : String
  direction : SwapDirection
  sourceAddress : String
  sourceTxHash : String
  amountIn : ℚ
  targetAddress : String
  targetTxHash : Option String
  amountOut : Option ℚ
  minAmountOut : ℚ
  status : IntentStatus
  expiry : ℚ
  createdAt : ℚ
  fulfilledAt : Option ℚ
  error : Option String
  payload : SwapIntentPayload
deriving DecidableEq

structure SubmitResponse where
  intentId : String
  status : IntentStatus
  message : String
deriving DecidableEq

/-- The SQLite-backed store: the `intents` table (insertion-ordered) and
the `nonces` table. -/
structure Store where
  intents : List Intent
  nonces : List String
deriving DecidableEq

def getByTxHash (st : Store) (txHash : String) : Option Intent :=
  st.intents.find? (fun i => i.sourceTxHash = txHash)

def storeGet (st : Store) (intentId : String) : Option Intent :=
  st.intents.find? (fun i => i.intentId = intentId)

def isNonceUsed (st : Store) (nonce : String) : Bool :=
  st.nonces.contains nonce

/-- `IntentStore.add`: insert the intent row (addresses lowercased by
`db.addIntent`) and insert its payload nonce (`INSERT OR IGNORE`). -/
def storeAdd (st : Store) (i : Intent) : Store :=
  { intents := st.intents ++
      [{ i with sourceAddress := i.sourceAddress.toLower,
                targetAddress := i.targetAddress.toLower }]
    nonces := if st.nonces.contains i.payload.nonce then st.nonces
              else st.nonces ++ [i.payload.nonce] }

/-- A partial intent update (`Partial<Intent>` restricted to the columns
`db.updateIntent` writes). -/
structure IntentUpdate where
  status : Option IntentStatus := none
  targetTxHash : Option String := none
  amountOut : Option ℚ := none
  fulfilledAt : Option ℚ := none
  error : Option String := none

def applyUpdate (i : Intent) (u : IntentUpdate) : Intent :=
  { i with
    status := u.status.getD i.status
    targetTxHash := match u.targetTxHash with | some v => some v | none => i.targetTxHash
    amountOut := match u.amountOut with | some v => some v | none => i.amountOut
    fulfilledAt := match u.fulfilledAt with | some v => some v | none => i.fulfilledAt
    error := match u.error with | some v => some v | none => i.error }

def storeUpdate (st : Store) (intentId : String) (u : IntentUpdate) : Store :=
  { st with intents := st.intents.map (fun i => if i.intentId = intentId then applyUpdate i u else i) }

def getOpenIntents (st : Store) : List Intent :=
  st.intents.filter (fun i => i.status = .OPEN)

def getPendingIntents (st : Store) : List Intent :=
  st.intents.filter (fun i => i.status = .PENDING)

/-- The 10% liquidity buffer of src/solver.ts. -/
def LIQUIDITY_BUFFER : ℚ := 11 / 10

/-- Solver-relevant configuration (src/config.ts). -/
structure SolverConfig where
  octraEscrowAddress : String
  sepoliaEscrowAddress : String
  feeBps : ℚ
deriving DecidableEq

/-- Outcome of a submission call: the HTTP response, the store afterwards,
and the fulfillment task fired in the background (intent id and the payout
amount handed to it), if any. -/
structure SubmitOutcome where
  resp : SubmitResponse
  store : Store
  dispatch : Option (String × ℚ)
deriving DecidableEq

/-- Model of `processOctToEthSubmission`: dedup by source transaction
hash, then validate (lookup, confirmation, payload parse, payload
validation, nonce, quoted output vs minimum), probe fresh ETH liquidity,
create the intent row, and either fire fulfillment or queue. External
effects are parameters: `fetched` is the Octra RPC lookup result,
`freshEthBalance` the uncached hot-wallet balance, `newId` the generated
UUID. -/
def processOctToEthSubmission (cfg : SolverConfig) (db : Store) (oracle : OracleState)
    (fetched : Option OctraTransaction) (freshEthBalance : ℚ) (now : ℚ) (newId : String)
    (octraTxHash : String) : SubmitOutcome :=
  match getByTxHash db octraTxHash with
  | some existing => ⟨⟨existing.intentId, existing.status, "Intent already submitted"⟩, db, none⟩
  | none =>
    match fetched with
    | none => ⟨⟨"", .REJECTED, "Transaction not found on Octra chain"⟩, db, none⟩
    | some tx =>
      if tx.status ≠ .confirmed then
        ⟨⟨"", .REJECTED, "Transaction not confirmed: " ++ txStatusStr tx.status⟩, db, none⟩
      else
        match parseIntentPayload tx.message with
        | none => ⟨⟨"", .REJECTED, "Invalid intent payload in transaction"⟩, db, none⟩
        | some payload =>
          let validation := validateIntentPayload payload tx cfg.octraEscrowAddress now
          if ¬ validation.valid then
            ⟨⟨"", .REJECTED, validation.error.getD "Validation failed"⟩, db, none⟩
          else if isNonceUsed db payload.nonce then
            ⟨⟨"", .REJECTED, "Nonce already used"⟩, db, none⟩
          else
            let ethOut := calculateEthOut oracle payload.amountIn cfg.feeBps
            if ethOut < payload.minAmountOut then
              ⟨⟨"", .REJECTED, "Output " ++ numToString ethOut ++ " ETH below minimum "
                  ++ numToString payload.minAmountOut ++ " ETH"⟩, db, none⟩
            else
              let requiredEth := ethOut * LIQUIDITY_BUFFER
              let hasLiquidity := freshEthBalance ≥ requiredEth
              let intent : Intent :=
                { intentId := newId
                  direction := .OCT_TO_ETH
                  sourceAddress := tx.fromAddr
                  sourceTxHash := octraTxHash
                  amountIn := payload.amountIn
                  targetAddress := payload.targetAddress
                  targetTxHash := none
                  amountOut := none
                  minAmountOut := payload.minAmountOut
                  status := if hasLiquidity then .OPEN else .PENDING
                  expiry := payload.expiry
                  createdAt := now
                  fulfilledAt := none
                  error := none
                  payload := payload }
              let db2 := storeAdd db intent
              if hasLiquidity then
                ⟨⟨newId, .OPEN, "Intent submitted, fulfillment in progress"⟩, db2,
                  some (newId, ethOut)⟩
              else
                ⟨⟨newId, .PENDING,
                  "Intent queued - waiting for liquidity. Will be fulfilled automatically when available."⟩,
                  db2, none⟩

/-- The quote, liquidity probe and intent creation at the tail of
`processEthToOctSubmission` (steps 8–11). -/
def ethToOctCreate (cfg : SolverConfig) (db : Store) (oracle : OracleState)
    (tx : SepoliaTransaction) (freshOctBalance now : ℚ) (newId sepoliaTxHash : String)
    (intentData : EvmIntentData) (taddr : String) : SubmitOutcome :=
  let ethAmount := tx.value / 1000000000000000000
  if ethAmount ≤ 0 then
    ⟨⟨"", .REJECTED, "Invalid ETH amount"⟩, db, none⟩
  else
    let octOut := calculateOctOut oracle ethAmount cfg.feeBps
    if octOut < intentData.minAmountOut then
      ⟨⟨"", .REJECTED, "Output " ++ numToString octOut ++ " OCT below minimum "
          ++ numToString intentData.minAmountOut ++ " OCT"⟩, db, none⟩
    else
      let requiredOct := octOut * LIQUIDITY_BUFFER
      let hasLiquidity := freshOctBalance ≥ requiredOct
      let payload : SwapIntentPayload :=
        { version := 1
          intentType := "swap"
          fromAsset := "ETH"
          toAsset := "OCT"
          amountIn := ethAmount
          minAmountOut := intentData.minAmountOut
          targetChain := "octra_mainnet"
          targetAddress := taddr
          expiry := intentData.expiry
          nonce := intentData.nonce }
      let intent : Intent :=
        { intentId := newId
          direction := .ETH_TO_OCT
          sourceAddress := tx.fromAddr
          sourceTxHash := sepoliaTxHash
          amountIn := ethAmount
          targetAddress := taddr
          targetTxHash := none
          amountOut := none
          minAmountOut := intentData.minAmountOut
          status := if hasLiquidity then .OPEN else .PENDING
          expiry := intentData.expiry
          createdAt := now
          fulfilledAt := none
          error := none
          payload := payload }
      let db2 := storeAdd db intent
      if hasLiquidity then
        ⟨⟨newId, .OPEN, "Intent submitted, fulfillment in progress"⟩, db2,
          some (newId, octOut)⟩
      else
        ⟨⟨newId, .PENDING,
          "Intent queued - waiting for liquidity. Will be fulfilled automatically when available."⟩,
          db2, none⟩

/-- Steps 4–7 of `processEthToOctSubmission`, applied to the result of
`parseAndVerifyEvmEnvelope`: target Octra address format, expiry and
nonce checks. A truthy non-string `targetAddress` in the verified payload
would make the original throw at the `startsWith` call (surfaced as a
transport-level error, no row created); the model folds it into the
format rejection. -/
def ethToOctVerified (cfg : SolverConfig) (db : Store) (oracle : OracleState)
    (tx : SepoliaTransaction) (freshOctBalance now : ℚ) (newId sepoliaTxHash : String)
    (verifyResult : EvmVerifyResult) : SubmitOutcome :=
  match verifyResult.payload, verifyResult.valid with
  | some intentData, true =>
    (match intentData.targetAddress with
     | .str taddr =>
       if ¬ strStartsWith taddr "oct" then
         ⟨⟨"", .REJECTED, "Invalid Octra address format"⟩, db, none⟩
       else if now > intentData.expiry then
         ⟨⟨"", .REJECTED, "Intent has expired"⟩, db, none⟩
       else if isNonceUsed db intentData.nonce then
         ⟨⟨"", .REJECTED, "Nonce already used"⟩, db, none⟩
       else ethToOctCreate cfg db oracle tx freshOctBalance now newId sepoliaTxHash
         intentData taddr
     | _ => ⟨⟨"", .REJECTED, "Invalid Octra address format"⟩, db, none⟩)
  | _, _ => ⟨⟨"", .REJECTED, verifyResult.error.getD "Invalid payload"⟩, db, none⟩

/-- Model of `processEthToOctSubmission`: dedup by source transaction
hash, Sepolia lookup, confirmation and escrow-destination checks, then
envelope verification (with hash) and the remaining pipeline. -/
def processEthToOctSubmission (cfg : SolverConfig) (db : Store) (oracle : OracleState)
    (fetched : Option SepoliaTransaction) (freshOctBalance : ℚ) (now : ℚ) (newId : String)
    (sepoliaTxHash : String) : SubmitOutcome :=
  match getByTxHash db sepoliaTxHash with
  | some existing => ⟨⟨existing.intentId, existing.status, "Intent already submitted"⟩, db, none⟩
  | none =>
    match fetched with
    | none => ⟨⟨"", .REJECTED, "Transaction not found on Sepolia"⟩, db, none⟩
    | some tx =>
      if tx.status ≠ .confirmed then
        ⟨⟨"", .REJECTED, "Transaction not confirmed: " ++ txStatusStr tx.status⟩, db, none⟩
      else if tx.toAddr.toLower ≠ cfg.sepoliaEscrowAddress.toLower then
        ⟨⟨"", .REJECTED, "Transaction not sent to ETH escrow. Expected: "
            ++ cfg.sepoliaEscrowAddress ++ ", Got: " ++ tx.toAddr⟩, db, none⟩
      else ethToOctVerified cfg db oracle tx freshOctBalance now newId sepoliaTxHash
        (parseAndVerifyEvmEnvelope (tx.input.getD ""))

/-- Result of a payout dispatch (`sendETH` / `sendOCT`). -/
structure SendResult where
  success : Bool
  txHash : Option String
  error : Option String
deriving DecidableEq

/-- Outcome of a fulfillment task: store and oracle afterwards, plus the
`recordSwap` invocations it performed (direction and amount passed). -/
structure FulfillOutcome where
  store : Store
  oracle : OracleState
  swapsRecorded : List (SwapDirection × ℚ)
deriving DecidableEq

/-- Model of `fulfillOctToEth`: re-read the intent, bail unless it is
OPEN/PENDING, expire it if past deadline, else dispatch `ethOut` and on
confirmed success mark FULFILLED and record the swap with the intent's
OCT input amount. -/
def fulfillOctToEth (sqrtQ : ℚ → ℚ) (ocfg : OracleConfig) (db : Store) (oracle : OracleState)
    (intentId : String) (ethOut : ℚ) (now : ℚ) (sendResult : SendResult) : FulfillOutcome :=
  match storeGet db intentId with
  | none => ⟨db, oracle, []⟩
  | some intent =>
    if intent.status ≠ .OPEN ∧ intent.status ≠ .PENDING then ⟨db, oracle, []⟩
    else if now > intent.expiry then
      ⟨storeUpdate db intentId { status := some .EXPIRED }, oracle, []⟩
    else
      match sendResult.success, sendResult.txHash with
      | true, some txh =>
        ⟨storeUpdate db intentId
            { status := some .FULFILLED, targetTxHash := some txh,
              amountOut := some ethOut, fulfilledAt := some now },
          recordSwap sqrtQ ocfg oracle now .OCT_TO_ETH intent.amountIn,
          [(.OCT_TO_ETH, intent.amountIn)]⟩
      | _, _ => ⟨db, oracle, []⟩

/-- Model of `fulfillEthToOct`: as `fulfillOctToEth`, but dispatching
`octOut` OCT; on success the source records the swap as
`recordSwap('ETH_TO_OCT', octOut)` — passing the OCT output amount. -/
def fulfillEthToOct (sqrtQ : ℚ → ℚ) (ocfg : OracleConfig) (db : Store) (oracle : OracleState)
    (intentId : String) (octOut : ℚ) (now : ℚ) (sendResult : SendResult) : FulfillOutcome :=
  match storeGet db intentId with
  | none => ⟨db, oracle, []⟩
  | some intent =>
    if intent.status ≠ .OPEN ∧ intent.status ≠ .PENDING then ⟨db, oracle, []⟩
    else if now > intent.expiry then
      ⟨storeUpdate db intentId { status := some .EXPIRED }, oracle, []⟩
    else
      match sendResult.success, sendResult.txHash with
      | true, some txh =>
        ⟨storeUpdate db intentId
            { status := some .FULFILLED, targetTxHash := some txh,
              amountOut := some octOut, fulfilledAt := some now },
          recordSwap sqrtQ ocfg oracle now .ETH_TO_OCT octOut,
          [(.ETH_TO_OCT, octOut)]⟩
      | _, _ => ⟨db, oracle, []⟩

/-- Outcome of one tick of the expiry/retry checker: the store afterwards
and the fulfillment tasks fired (intent id, direction, payout amount). -/
structure SweepOutcome where
  store : Store
  dispatches : List (String × SwapDirection × ℚ)
deriving DecidableEq

/-- One step of the PENDING retry loop in `startExpiryChecker`. -/
def sweepPendingStep (cfg : SolverConfig) (oracle : OracleState)
    (freshEthBalance freshOctBalance : ℚ) (now : ℚ)
    (acc : Store × List (String × SwapDirection × ℚ)) (i : Intent) :
    Store × List (String × SwapDirection × ℚ) :=
  if now > i.expiry then
    (storeUpdate acc.1 i.intentId { status := some .EXPIRED }, acc.2)
  else
    match i.direction with
    | .OCT_TO_ETH =>
      let ethOut := calculateEthOut oracle i.amountIn cfg.feeBps
      if freshEthBalance ≥ ethOut * LIQUIDITY_BUFFER then
        (storeUpdate acc.1 i.intentId { status := some .OPEN },
          acc.2 ++ [(i.intentId, .OCT_TO_ETH, ethOut)])
      else acc
    | .ETH_TO_OCT =>
      let octOut := calculateOctOut oracle i.amountIn cfg.feeBps
      if freshOctBalance ≥ octOut * LIQUIDITY_BUFFER then
        (storeUpdate acc.1 i.intentId { status := some .OPEN },
          acc.2 ++ [(i.intentId, .ETH_TO_OCT, octOut)])
      else acc

/-- One tick of the 30-second `startExpiryChecker` interval: pass 1
expires OPEN intents past their deadline; pass 2 walks the PENDING
intents, expiring stale ones and re-attempting dispatch when fresh
liquidity suffices — with the payout amount re-quoted from the current
oracle state. The fresh balances are modelled as constant within a tick. -/
def expiryCheckerTick (cfg : SolverConfig) (db : Store) (oracle : OracleState)
    (freshEthBalance freshOctBalance : ℚ) (now : ℚ) : SweepOutcome :=
  let expired := (getOpenIntents db).filter (fun i => now > i.expiry)
  let db1 := expired.foldl (fun acc i => storeUpdate acc i.intentId { status := some .EXPIRED }) db
  let pending := getPendingIntents db1
  let r := pending.foldl (sweepPendingStep cfg oracle freshEthBalance freshOctBalance now) (db1, [])
  ⟨r.1, r.2⟩

/-! ## Claim theorems -/

/-- A fixed sample oracle state: the constructor defaults (1,000,000 OCT /
1,000 ETH virtual reserves, k their product), built at time 0. -/
def sampleOracleState : OracleState := initialOracleState 1000000 1000 0

/-- C1. For every input amount, direction and fee, the oracle quote equals
`max 0 ((reserveOut - k/(reserveIn + a)) * (1 - feeBps/10000))`; it is
never negative, and it is exactly 0 whenever the constant-product update
would invert the reserves (for any fee of at most 100%). -/
theorem C1_quote_formula (s : OracleState) (a f : ℚ) (hf1 : f ≤ 10000) :
    calculateEthOut s a f =
      max 0 ((s.reserves.ethReserve - s.reserves.k / (s.reserves.octReserve + a))
        * (1 - f / 10000)) ∧
    calculateOctOut s a f =
      max 0 ((s.reserves.octReserve - s.reserves.k / (s.reserves.ethReserve + a))
        * (1 - f / 10000)) ∧
    0 ≤ calculateEthOut s a f ∧
    0 ≤ calculateOctOut s a f ∧
    (s.reserves.ethReserve - s.reserves.k / (s.reserves.octReserve + a) ≤ 0 →
      calculateEthOut s a f = 0) ∧
    (s.reserves.octReserve - s.reserves.k / (s.reserves.ethReserve + a) ≤ 0 →
      calculateOctOut s a f = 0) := by
  have key : ∀ g c : ℚ, g - g * c = g * (1 - c) := by intro g c; ring
  refine ⟨?_, ?_, le_max_left 0 _, le_max_left 0 _, ?_, ?_⟩
  · simp only [calculateEthOut, key]
  · simp only [calculateOctOut, key]
  · intro hg
    simp only [calculateEthOut, key]
    refine max_eq_left ?_
    exact mul_nonpos_of_nonpos_of_nonneg hg (by linarith)
  · intro hg
    simp only [calculateOctOut, key]
    refine max_eq_left ?_
    exact mul_nonpos_of_nonpos_of_nonneg hg (by linarith)

/-- Witness for C1 at the sample state, 100 OCT in, 50 bps fee. -/
theorem C1_quote_formula_witness :
    calculateEthOut sampleOracleState 100 50 =
      max 0 ((sampleOracleState.reserves.ethReserve
        - sampleOracleState.reserves.k / (sampleOracleState.reserves.octReserve + 100))
        * (1 - 50 / 10000)) ∧
    calculateOctOut sampleOracleState 100 50 =
      max 0 ((sampleOracleState.reserves.octReserve
        - sampleOracleState.reserves.k / (sampleOracleState.reserves.ethReserve + 100))
        * (1 - 50 / 10000)) := by
  have h := C1_quote_formula sampleOracleState 100 50 (by norm_num)
  exact ⟨h.1, h.2.1⟩

/-- C8. For a fixed reserve state the quote is monotone non-decreasing in
the input amount, and for any positive input the fee-free quote is strictly
below the linear extrapolation at the spot price, in both directions. -/
theorem C8_monotone_and_price_impact (s : OracleState) (f a1 a2 a : ℚ)
    (hoct : 0 < s.reserves.octReserve) (heth : 0 < s.reserves.ethReserve)
    (hk : s.reserves.k = s.reserves.octReserve * s.reserves.ethReserve)
    (hf0 : 0 ≤ f) (hf1 : f ≤ 10000)
    (h01 : 0 ≤ a1) (h12 : a1 ≤ a2) (ha : 0 < a) :
    calculateEthOut s a1 f ≤ calculateEthOut s a2 f ∧
    calculateOctOut s a1 f ≤ calculateOctOut s a2 f ∧
    calculateEthOut s a 0 < calculateSpotPrice s.reserves * a ∧
    calculateOctOut s a 0 < a / calculateSpotPrice s.reserves := by
  simp only [calculateEthOut, calculateOctOut, calculateSpotPrice]
  set O := s.reserves.octReserve with hOdef
  set E := s.reserves.ethReserve with hEdef
  set K := s.reserves.k with hKdef
  have hK : (0:ℚ) ≤ K := by rw [hk]; positivity
  have hc : (0:ℚ) ≤ 1 - f / 10000 := by linarith
  refine ⟨?_, ?_, ?_, ?_⟩
  · have hO1 : (0:ℚ) < O + a1 := by linarith
    have hO2 : (0:ℚ) < O + a2 := by linarith
    have hdiv : K / (O + a2) ≤ K / (O + a1) := by gcongr
    have hgross : E - K / (O + a1) ≤ E - K / (O + a2) := by linarith
    refine max_le_max le_rfl ?_
    nlinarith [mul_nonneg (sub_nonneg.2 hgross) hc]
  · have hE1 : (0:ℚ) < E + a1 := by linarith
    have hE2 : (0:ℚ) < E + a2 := by linarith
    have hdiv : K / (E + a2) ≤ K / (E + a1) := by gcongr
    have hgross : O - K / (E + a1) ≤ O - K / (E + a2) := by linarith
    refine max_le_max le_rfl ?_
    nlinarith [mul_nonneg (sub_nonneg.2 hgross) hc]
  · have hOa : (0:ℚ) < O + a := by linarith
    have hspot : (0:ℚ) < E / O * a := by positivity
    have hrw : E - K / (O + a) = E * a / (O + a) := by
      rw [hk]; field_simp; ring
    simp only [zero_div, mul_zero, sub_zero]
    refine max_lt hspot ?_
    rw [hrw]
    calc E * a / (O + a) < E * a / O :=
          div_lt_div_of_pos_left (by positivity) hoct (by linarith)
      _ = E / O * a := by ring
  · have hEa : (0:ℚ) < E + a := by linarith
    have hspot : (0:ℚ) < a / (E / O) := by positivity
    have hrw : O - K / (E + a) = O * a / (E + a) := by
      rw [hk]; field_simp; ring
    simp only [zero_div, mul_zero, sub_zero]
    refine max_lt hspot ?_
    rw [hrw]
    calc O * a / (E + a) < O * a / E :=
          div_lt_div_of_pos_left (by positivity) heth (by linarith)
      _ = a / (E / O) := by field_simp; ring

/-- Witness for C8 at the sample state (inputs 10 ≤ 20, strict input 100,
50 bps fee). -/
theorem C8_monotone_and_price_impact_witness :
    calculateEthOut sampleOracleState 10 50 ≤ calculateEthOut sampleOracleState 20 50 ∧
    calculateOctOut sampleOracleState 10 50 ≤ calculateOctOut sampleOracleState 20 50 ∧
    calculateEthOut sampleOracleState 100 0
      < calculateSpotPrice sampleOracleState.reserves * 100 ∧
    calculateOctOut sampleOracleState 100 0
      < 100 / calculateSpotPrice sampleOracleState.reserves :=
  C8_monotone_and_price_impact sampleOracleState 50 10 20 100
    (by decide) (by decide) (by decide) (by norm_num) (by norm_num)
    (by norm_num) (by norm_num) (by norm_num)

/-- Reserves are untouched by the EMA update. -/
theorem reserves_updateEMA (cfg : OracleConfig) (s : OracleState) :
    (updateEMA cfg s).reserves = s.reserves := rfl

/-- Reserves are untouched by the TWAP update. -/
theorem reserves_updateTWAP (cfg : OracleConfig) (s : OracleState) (now : ℚ) :
    (updateTWAP cfg s now).reserves = s.reserves := rfl

/-- Reserves are untouched by the circuit-breaker trigger. -/
theorem reserves_trigger (s : OracleState) (now : ℚ) :
    (triggerCircuitBreaker s now).reserves = s.reserves := rfl

/-- Reserves are untouched by price recording. -/
theorem reserves_recordPrice (s : OracleState) (r now : ℚ) (re : PriceReason)
    (v : Option ℚ) (d : Option SwapDirection) :
    (recordPrice s r now re v d).reserves = s.reserves := rfl

/-- The stored constant `k` is untouched by the trade-side reserve update. -/
theorem k_recordSwapReserves (s : OracleState) (dir : SwapDirection) (amt : ℚ) :
    (recordSwapReserves s dir amt).k = s.reserves.k := by
  cases dir <;> rfl

/-- A pair of exact square roots of `k/p` and `k*p` multiplies back to `k`. -/
theorem sqrt_pair_product (x y A B k : ℚ) (hx : 0 ≤ x) (hy : 0 ≤ y)
    (hx2 : x ^ 2 = A) (hy2 : y ^ 2 = B) (hAB : A * B = k ^ 2) (hkpos : 0 < k) :
    x * y = k := by
  have h2 : (x * y) ^ 2 = k ^ 2 := by rw [mul_pow, hx2, hy2, hAB]
  have hfac : (x * y - k) * (x * y + k) = 0 := by linear_combination h2
  rcases mul_eq_zero.mp hfac with h | h
  · linarith
  · have := mul_nonneg hx hy
    linarith

/-- The price-bound clamp restores `reserveIn * reserveOut = k` exactly,
provided the supplied square root is exact at the two points it is called
on (this is the ideal-arithmetic reading of `Math.sqrt`). -/
theorem applyPriceBounds_product (sqrtQ : ℚ → ℚ) (cfg : OracleConfig) (t : OracleState)
    (hprod : t.reserves.octReserve * t.reserves.ethReserve = t.reserves.k)
    (hkpos : 0 < t.reserves.k)
    (hminpos : 0 < cfg.minRate) (hmaxpos : 0 < cfg.maxRate)
    (hsmin1 : 0 ≤ sqrtQ (t.reserves.k / cfg.minRate) ∧
      sqrtQ (t.reserves.k / cfg.minRate) ^ 2 = t.reserves.k / cfg.minRate)
    (hsmin2 : 0 ≤ sqrtQ (t.reserves.k * cfg.minRate) ∧
      sqrtQ (t.reserves.k * cfg.minRate) ^ 2 = t.reserves.k * cfg.minRate)
    (hsmax1 : 0 ≤ sqrtQ (t.reserves.k / cfg.maxRate) ∧
      sqrtQ (t.reserves.k / cfg.maxRate) ^ 2 = t.reserves.k / cfg.maxRate)
    (hsmax2 : 0 ≤ sqrtQ (t.reserves.k * cfg.maxRate) ∧
      sqrtQ (t.reserves.k * cfg.maxRate) ^ 2 = t.reserves.k * cfg.maxRate) :
    (applyPriceBounds sqrtQ cfg t).reserves.octReserve
      * (applyPriceBounds sqrtQ cfg t).reserves.ethReserve = t.reserves.k ∧
    (applyPriceBounds sqrtQ cfg t).reserves.k = t.reserves.k := by
  simp only [applyPriceBounds]
  split_ifs with h1 h2 h3 h4 h5 <;> (try dsimp only) <;>
    first
      | exact absurd rfl h5
      | exact ⟨hprod, rfl⟩
      | exact ⟨sqrt_pair_product _ _ _ _ _ hsmin1.1 hsmin2.1 hsmin1.2 hsmin2.2
          (by field_simp; ring) hkpos, rfl⟩
      | exact ⟨sqrt_pair_product _ _ _ _ _ hsmax1.1 hsmax2.1 hsmax1.2 hsmax2.2
          (by field_simp; ring) hkpos, rfl⟩

/-- C7. After `recordSwap` the product of the virtual reserves equals the
stored `k`: the fee-free trade update preserves the product exactly, and
when the price-bound clamp rewrites the price the reserves are
resynthesized as `sqrt(k/price)` / `sqrt(k*price)`, restoring the product
to exactly `k` (with `Math.sqrt` read as exact); the stored `k` itself is
never changed. -/
theorem C7_recordSwap_preserves_k (sqrtQ : ℚ → ℚ) (cfg : OracleConfig) (s : OracleState)
    (now amt : ℚ) (dir : SwapDirection)
    (hoct : 0 < s.reserves.octReserve) (heth : 0 < s.reserves.ethReserve)
    (hk : s.reserves.octReserve * s.reserves.ethReserve = s.reserves.k)
    (hamt : 0 ≤ amt)
    (hminpos : 0 < cfg.minRate) (hmaxpos : 0 < cfg.maxRate)
    (hsmin1 : 0 ≤ sqrtQ (s.reserves.k / cfg.minRate) ∧
      sqrtQ (s.reserves.k / cfg.minRate) ^ 2 = s.reserves.k / cfg.minRate)
    (hsmin2 : 0 ≤ sqrtQ (s.reserves.k * cfg.minRate) ∧
      sqrtQ (s.reserves.k * cfg.minRate) ^ 2 = s.reserves.k * cfg.minRate)
    (hsmax1 : 0 ≤ sqrtQ (s.reserves.k / cfg.maxRate) ∧
      sqrtQ (s.reserves.k / cfg.maxRate) ^ 2 = s.reserves.k / cfg.maxRate)
    (hsmax2 : 0 ≤ sqrtQ (s.reserves.k * cfg.maxRate) ∧
      sqrtQ (s.reserves.k * cfg.maxRate) ^ 2 = s.reserves.k * cfg.maxRate) :
    (recordSwapReserves s dir amt).octReserve * (recordSwapReserves s dir amt).ethReserve
      = s.reserves.k ∧
    (recordSwap sqrtQ cfg s now dir amt).reserves.octReserve
      * (recordSwap sqrtQ cfg s now dir amt).reserves.ethReserve = s.reserves.k ∧
    (recordSwap sqrtQ cfg s now dir amt).reserves.k = s.reserves.k := by
  have hkpos : 0 < s.reserves.k := by rw [← hk]; positivity
  have htrade : (recordSwapReserves s dir amt).octReserve
      * (recordSwapReserves s dir amt).ethReserve = s.reserves.k := by
    cases dir
    · show (s.reserves.octReserve + amt)
        * (s.reserves.ethReserve - calculateEthOut s amt 0) = s.reserves.k
      have hOa : (0:ℚ) < s.reserves.octReserve + amt := by linarith
      have hg : 0 ≤ s.reserves.ethReserve - s.reserves.k / (s.reserves.octReserve + amt) := by
        rw [← hk]
        have hle : s.reserves.octReserve * s.reserves.ethReserve / (s.reserves.octReserve + amt)
            ≤ s.reserves.ethReserve := by
          rw [div_le_iff hOa]; nlinarith
        linarith
      have hmax : calculateEthOut s amt 0
          = s.reserves.ethReserve - s.reserves.k / (s.reserves.octReserve + amt) := by
        simp only [calculateEthOut, zero_div, mul_zero, sub_zero]
        exact max_eq_right hg
      rw [hmax]
      field_simp
    · show (s.reserves.octReserve - calculateOctOut s amt 0)
        * (s.reserves.ethReserve + amt) = s.reserves.k
      have hEa : (0:ℚ) < s.reserves.ethReserve + amt := by linarith
      have hg : 0 ≤ s.reserves.octReserve - s.reserves.k / (s.reserves.ethReserve + amt) := by
        rw [← hk]
        have hle : s.reserves.octReserve * s.reserves.ethReserve / (s.reserves.ethReserve + amt)
            ≤ s.reserves.octReserve := by
          rw [div_le_iff hEa]; nlinarith
        linarith
      have hmax : calculateOctOut s amt 0
          = s.reserves.octReserve - s.reserves.k / (s.reserves.ethReserve + amt) := by
        simp only [calculateOctOut, zero_div, mul_zero, sub_zero]
        exact max_eq_right hg
      rw [hmax]
      field_simp
  have hres : ∀ t : OracleState, t.reserves = recordSwapReserves s dir amt →
      (applyPriceBounds sqrtQ cfg t).reserves.octReserve
        * (applyPriceBounds sqrtQ cfg t).reserves.ethReserve = s.reserves.k ∧
      (applyPriceBounds sqrtQ cfg t).reserves.k = s.reserves.k := by
    intro t ht
    have hktk : t.reserves.k = s.reserves.k := by rw [ht, k_recordSwapReserves]
    have h := applyPriceBounds_product sqrtQ cfg t
      (by rw [ht, k_recordSwapReserves]; exact htrade)
      (by rw [hktk]; exact hkpos) hminpos hmaxpos
      (by rw [hktk]; exact hsmin1) (by rw [hktk]; exact hsmin2)
      (by rw [hktk]; exact hsmax1) (by rw [hktk]; exact hsmax2)
    exact ⟨by rw [h.1, hktk], by rw [h.2, hktk]⟩
  obtain ⟨t, ht, hteq⟩ : ∃ t : OracleState, t.reserves = recordSwapReserves s dir amt ∧
      (recordSwap sqrtQ cfg s now dir amt).reserves = (applyPriceBounds sqrtQ cfg t).reserves := by
    refine ⟨_, ?_, rfl⟩
    simp only [reserves_updateTWAP, reserves_updateEMA]
    split <;> rfl
  rw [hteq]
  exact ⟨htrade, (hres t ht).1, (hres t ht).2⟩

/-- A unit-reserve oracle state (k = 1) for the C7 witness. -/
def unitOracleState : OracleState :=
  { reserves := { octReserve := 1, ethReserve := 1, k := 1 }
    spotPrice := 1
    emaPrice := 1
    twapDataPoints := []
    priceHistory := []
    volumeHistory := []
    circuitBreakerActive := false
    lastCircuitBreakerReset := 0
    pendingBreakerReset := none }

/-- A configuration with perfect-square bound ratios for the C7 witness. -/
def squareBoundsConfig : OracleConfig :=
  { initialRate := 1
    minRate := 1 / 4
    maxRate := 4
    emaAlpha := 1 / 10
    twapWindowMs := 900000
    maxPriceChangePercent := 10
    feeBps := 50 }

/-- An exact square root on the four inputs the C7 witness needs. -/
def sqrtQunit (x : ℚ) : ℚ :=
  if x = 4 then 2 else if x = 1 / 4 then 1 / 2 else 0

/-- Witness for C7: a 3-OCT swap on the unit state. -/
theorem C7_recordSwap_preserves_k_witness :
    (recordSwapReserves unitOracleState .OCT_TO_ETH 3).octReserve
      * (recordSwapReserves unitOracleState .OCT_TO_ETH 3).ethReserve
      = unitOracleState.reserves.k ∧
    (recordSwap sqrtQunit squareBoundsConfig unitOracleState 0 .OCT_TO_ETH 3).reserves.octReserve
      * (recordSwap sqrtQunit squareBoundsConfig unitOracleState 0 .OCT_TO_ETH 3).reserves.ethReserve
      = unitOracleState.reserves.k ∧
    (recordSwap sqrtQunit squareBoundsConfig unitOracleState 0 .OCT_TO_ETH 3).reserves.k
      = unitOracleState.reserves.k :=
  C7_recordSwap_preserves_k sqrtQunit squareBoundsConfig unitOracleState 0 3 .OCT_TO_ETH
    (by decide) (by decide) (by decide) (by decide) (by decide) (by decide)
    (by constructor <;> norm_num [sqrtQunit, squareBoundsConfig, unitOracleState])
    (by constructor <;> norm_num [sqrtQunit, squareBoundsConfig, unitOracleState])
    (by constructor <;> norm_num [sqrtQunit, squareBoundsConfig, unitOracleState])
    (by constructor <;> norm_num [sqrtQunit, squareBoundsConfig, unitOracleState])

/-- Breaker bookkeeping fields across the post-trigger stages of
`recordSwap` (all definitional). -/
theorem flags_updateEMA (cfg : OracleConfig) (x : OracleState) :
    (updateEMA cfg x).circuitBreakerActive = x.circuitBreakerActive ∧
    (updateEMA cfg x).lastCircuitBreakerReset = x.lastCircuitBreakerReset ∧
    (updateEMA cfg x).pendingBreakerReset = x.pendingBreakerReset := ⟨rfl, rfl, rfl⟩

theorem flags_updateTWAP (cfg : OracleConfig) (x : OracleState) (now : ℚ) :
    (updateTWAP cfg x now).circuitBreakerActive = x.circuitBreakerActive ∧
    (updateTWAP cfg x now).lastCircuitBreakerReset = x.lastCircuitBreakerReset ∧
    (updateTWAP cfg x now).pendingBreakerReset = x.pendingBreakerReset := ⟨rfl, rfl, rfl⟩

theorem flags_applyPriceBounds (sqrtQ : ℚ → ℚ) (cfg : OracleConfig) (x : OracleState) :
    (applyPriceBounds sqrtQ cfg x).circuitBreakerActive = x.circuitBreakerActive ∧
    (applyPriceBounds sqrtQ cfg x).lastCircuitBreakerReset = x.lastCircuitBreakerReset ∧
    (applyPriceBounds sqrtQ cfg x).pendingBreakerReset = x.pendingBreakerReset := ⟨rfl, rfl, rfl⟩

/-- The spot price after the clamp, in closed form. -/
theorem spot_applyPriceBounds (sqrtQ : ℚ → ℚ) (cfg : OracleConfig) (x : OracleState)
    (hminmax : cfg.minRate ≤ cfg.maxRate) :
    (applyPriceBounds sqrtQ cfg x).spotPrice
      = min cfg.maxRate (max cfg.minRate x.spotPrice) := by
  show (if x.spotPrice < cfg.minRate then cfg.minRate
    else if x.spotPrice > cfg.maxRate then cfg.maxRate else x.spotPrice)
      = min cfg.maxRate (max cfg.minRate x.spotPrice)
  split_ifs with h1 h2
  · rw [max_eq_left h1.le, min_eq_right hminmax]
  · rw [max_eq_right (not_lt.mp h1), min_eq_left h2.le]
  · rw [max_eq_right (not_lt.mp h1), min_eq_right (not_lt.mp h2)]

/-- C6 (amended). When a recorded swap moves the spot price beyond the
configured threshold, the breaker activates with a reset scheduled 5
minutes ahead, the spot price is frozen at the pre-trade EMA (subject to
the price-bound clamp), and while the flag is set the effective rate
served to quoting callers is the TWAP — not the pre-trade EMA; once the
scheduled reset fires, the effective rate reverts to the 70/30 EMA/TWAP
blend. -/
theorem C6_breaker_amended (sqrtQ : ℚ → ℚ) (cfg : OracleConfig) (s : OracleState)
    (now amt t : ℚ) (dir : SwapDirection) (s1 : OracleState)
    (htrig : |(calculateSpotPrice (recordSwapReserves s dir amt) - s.spotPrice) / s.spotPrice|
      * 100 > cfg.maxPriceChangePercent)
    (hminmax : cfg.minRate ≤ cfg.maxRate)
    (hs1 : s1 = recordSwap sqrtQ cfg s now dir amt) :
    s1.circuitBreakerActive = true ∧
    s1.lastCircuitBreakerReset = now ∧
    s1.pendingBreakerReset = some (now + 5 * 60 * 1000) ∧
    s1.spotPrice = min cfg.maxRate (max cfg.minRate s.emaPrice) ∧
    getEffectivePrice s1 = calculateTWAP s1 ∧
    (getRate cfg s1 t).1 = calculateTWAP (updateTWAP cfg s1 t) ∧
    getEffectivePrice (fireBreakerReset s1) =
      (fireBreakerReset s1).emaPrice * (7 / 10)
        + calculateTWAP (fireBreakerReset s1) * (3 / 10) := by
  subst hs1
  have hkey : (recordSwap sqrtQ cfg s now dir amt).circuitBreakerActive = true ∧
      (recordSwap sqrtQ cfg s now dir amt).lastCircuitBreakerReset = now ∧
      (recordSwap sqrtQ cfg s now dir amt).pendingBreakerReset = some (now + 5 * 60 * 1000) ∧
      (recordSwap sqrtQ cfg s now dir amt).spotPrice
        = min cfg.maxRate (max cfg.minRate s.emaPrice) := by
    simp only [recordSwap]
    rw [if_pos htrig]
    refine ⟨rfl, rfl, rfl, ?_⟩
    show (applyPriceBounds sqrtQ cfg _).spotPrice = _
    rw [spot_applyPriceBounds _ _ _ hminmax]
    rfl
  obtain ⟨hflag, hreset, hpending, hspot⟩ := hkey
  refine ⟨hflag, hreset, hpending, hspot, ?_, ?_, ?_⟩
  · simp only [getEffectivePrice, hflag, if_true]
  · have hf2 : (updateTWAP cfg (recordSwap sqrtQ cfg s now dir amt) t).circuitBreakerActive
        = true := by
      rw [(flags_updateTWAP cfg _ t).1, hflag]
    simp only [getRate, getEffectivePrice, hf2, if_true]
  · have hf3 : (fireBreakerReset (recordSwap sqrtQ cfg s now dir amt)).circuitBreakerActive
        = false := rfl
    simp only [getEffectivePrice, hf3, Bool.false_eq_true, if_false]

/-- An oracle state whose TWAP window records a price of 3 while spot and
EMA sit at 1 (reserves 1000/1000, k fixed at 1000000 so that a swap moves
the price sharply). -/
def twapSkewedState : OracleState :=
  { reserves := { octReserve := 1000, ethReserve := 1000, k := 1000000 }
    spotPrice := 1
    emaPrice := 1
    twapDataPoints := [{ price := 3, timestamp := 400000, weight := 0 }]
    priceHistory := []
    volumeHistory := []
    circuitBreakerActive := false
    lastCircuitBreakerReset := 0
    pendingBreakerReset := none }

/-- C6 counterexample: a 300-OCT swap on `twapSkewedState` moves the spot
by ≈ 40% (beyond the 10% threshold) and activates the breaker, yet the
effective rate served during the cooldown is the TWAP (3), not the
pre-trade EMA (1) — refuting the claim that the effective rate equals the
pre-trade EMA while the breaker is active. -/
theorem C6_breaker_counterexample :
    |(calculateSpotPrice (recordSwapReserves twapSkewedState .OCT_TO_ETH 300)
        - twapSkewedState.spotPrice) / twapSkewedState.spotPrice| * 100
      > squareBoundsConfig.maxPriceChangePercent ∧
    (recordSwap (fun _ => 0) squareBoundsConfig twapSkewedState 1000000
        .OCT_TO_ETH 300).circuitBreakerActive = true ∧
    twapSkewedState.emaPrice = 1 ∧
    (getRate squareBoundsConfig
        (recordSwap (fun _ => 0) squareBoundsConfig twapSkewedState 1000000 .OCT_TO_ETH 300)
        1000000).1 = 3 := by
  refine ⟨by decide, by decide, by decide, by decide⟩

/-- Witness for the amended C6 at the same swap. -/
theorem C6_breaker_amended_witness :
    (recordSwap (fun _ => 0) squareBoundsConfig twapSkewedState 1000000
        .OCT_TO_ETH 300).circuitBreakerActive = true ∧
    (recordSwap (fun _ => 0) squareBoundsConfig twapSkewedState 1000000
        .OCT_TO_ETH 300).lastCircuitBreakerReset = 1000000 ∧
    (recordSwap (fun _ => 0) squareBoundsConfig twapSkewedState 1000000
        .OCT_TO_ETH 300).pendingBreakerReset = some (1000000 + 5 * 60 * 1000) ∧
    (recordSwap (fun _ => 0) squareBoundsConfig twapSkewedState 1000000
        .OCT_TO_ETH 300).spotPrice
      = min squareBoundsConfig.maxRate
          (max squareBoundsConfig.minRate twapSkewedState.emaPrice) ∧
    getEffectivePrice (recordSwap (fun _ => 0) squareBoundsConfig twapSkewedState 1000000
        .OCT_TO_ETH 300)
      = calculateTWAP (recordSwap (fun _ => 0) squareBoundsConfig twapSkewedState 1000000
        .OCT_TO_ETH 300) ∧
    (getRate squareBoundsConfig
        (recordSwap (fun _ => 0) squareBoundsConfig twapSkewedState 1000000 .OCT_TO_ETH 300)
        1000000).1
      = calculateTWAP (updateTWAP squareBoundsConfig
          (recordSwap (fun _ => 0) squareBoundsConfig twapSkewedState 1000000 .OCT_TO_ETH 300)
          1000000) ∧
    getEffectivePrice (fireBreakerReset
        (recordSwap (fun _ => 0) squareBoundsConfig twapSkewedState 1000000 .OCT_TO_ETH 300))
      = (fireBreakerReset (recordSwap (fun _ => 0) squareBoundsConfig twapSkewedState 1000000
          .OCT_TO_ETH 300)).emaPrice * (7 / 10)
        + calculateTWAP (fireBreakerReset
            (recordSwap (fun _ => 0) squareBoundsConfig twapSkewedState 1000000
              .OCT_TO_ETH 300)) * (3 / 10) :=
  C6_breaker_amended (fun _ => 0) squareBoundsConfig twapSkewedState 1000000 300 1000000
    .OCT_TO_ETH _ (by decide) (by decide) rfl

/-- The payout amount the sweep re-quotes for an intent, at the current
oracle state. -/
def sweepQuote (cfg : SolverConfig) (oracle : OracleState) (i : Intent) : ℚ :=
  match i.direction with
  | .OCT_TO_ETH => calculateEthOut oracle i.amountIn cfg.feeBps
  | .ETH_TO_OCT => calculateOctOut oracle i.amountIn cfg.feeBps

/-- One retry step either dispatches nothing new, or dispatches exactly the
re-quoted amount for an unexpired intent. -/
theorem sweepPendingStep_snd (cfg : SolverConfig) (oracle : OracleState)
    (be bo now : ℚ) (acc : Store × List (String × SwapDirection × ℚ)) (i : Intent) :
    (sweepPendingStep cfg oracle be bo now acc i).2 = acc.2 ∨
    (¬ now > i.expiry ∧
      (sweepPendingStep cfg oracle be bo now acc i).2
        = acc.2 ++ [(i.intentId, i.direction, sweepQuote cfg oracle i)]) := by
  unfold sweepPendingStep
  split_ifs with h1
  · exact Or.inl rfl
  · cases hdir : i.direction <;> simp only [hdir] <;> split_ifs with h2
    · exact Or.inr ⟨h1, by simp [sweepQuote, hdir]⟩
    · exact Or.inl rfl
    · exact Or.inr ⟨h1, by simp [sweepQuote, hdir]⟩
    · exact Or.inl rfl

/-- Every dispatch accumulated by the retry fold comes from the
accumulator or from an unexpired intent of the list, with the re-quoted
amount. -/
theorem sweep_foldl_dispatch (cfg : SolverConfig) (oracle : OracleState) (be bo now : ℚ) :
    ∀ (l : List Intent) (acc : Store × List (String × SwapDirection × ℚ))
      (d : String × SwapDirection × ℚ),
      d ∈ (l.foldl (sweepPendingStep cfg oracle be bo now) acc).2 →
      d ∈ acc.2 ∨ ∃ i ∈ l, ¬ now > i.expiry ∧
        d = (i.intentId, i.direction, sweepQuote cfg oracle i) := by
  intro l
  induction l with
  | nil => intro acc d hd; exact Or.inl hd
  | cons i l ih =>
    intro acc d hd
    rcases ih _ d hd with hmem | ⟨j, hj, hje, hjd⟩
    · rcases sweepPendingStep_snd cfg oracle be bo now acc i with heq | ⟨hexp, heq⟩
      · rw [heq] at hmem; exact Or.inl hmem
      · rw [heq] at hmem
        rcases List.mem_append.mp hmem with h | h
        · exact Or.inl h
        · refine Or.inr ⟨i, List.mem_cons_self i l, hexp, ?_⟩
          simpa using h
    · exact Or.inr ⟨j, List.mem_cons_of_mem i hj, hje, hjd⟩

/-- The expiry pass only produces rows that were already in the store or
rows it marked EXPIRED. -/
theorem pass1_mem (l : List Intent) :
    ∀ (st : Store) (i1 : Intent),
      i1 ∈ (l.foldl (fun acc i => storeUpdate acc i.intentId { status := some .EXPIRED })
        st).intents →
      i1 ∈ st.intents ∨ i1.status = .EXPIRED := by
  induction l with
  | nil => intro st i1 h; exact Or.inl h
  | cons i l ih =>
    intro st i1 h
    rcases ih _ i1 h with hmem | hexp
    · simp only [storeUpdate, List.mem_map] at hmem
      rcases hmem with ⟨j, hj, hji⟩
      by_cases hid : j.intentId = i.intentId
      · rw [if_pos hid] at hji
        exact Or.inr (hji ▸ rfl)
      · rw [if_neg hid] at hji
        exact Or.inl (hji ▸ hj)
    · exact Or.inr hexp

/-- C4 (amended). Each fulfillment the periodic sweep dispatches for a
PENDING intent carries the output re-quoted from the current oracle state
(`calculateEthOut`/`calculateOctOut` at sweep time), not an amount locked
in at intent creation — the creation-time quote is in fact never stored. -/
theorem C4_sweep_requotes (cfg : SolverConfig) (db : Store) (oracle : OracleState)
    (be bo now : ℚ) (d : String × SwapDirection × ℚ)
    (hd : d ∈ (expiryCheckerTick cfg db oracle be bo now).dispatches) :
    ∃ i, i ∈ db.intents ∧ i.status = .PENDING ∧ ¬ now > i.expiry ∧
      d = (i.intentId, i.direction, sweepQuote cfg oracle i) := by
  rcases sweep_foldl_dispatch cfg oracle be bo now _ _ d hd with h | ⟨i, hi, hie, hid⟩
  · exact absurd h (List.not_mem_nil d)
  · simp only [getPendingIntents, List.mem_filter, decide_eq_true_eq] at hi
    rcases pass1_mem _ _ i hi.1 with hmem | hexp
    · exact ⟨i, hmem, hi.2, hie, hid⟩
    · rw [hi.2] at hexp
      exact absurd hexp (by decide)

/-- A canonical OCT→ETH swap payload used by concrete scenarios. -/
def octPayload : SwapIntentPayload :=
  { version := 1
    intentType := "swap"
    fromAsset := "OCT"
    toAsset := "ETH"
    amountIn := 100
    minAmountOut := 0
    targetChain := "ethereum_sepolia"
    targetAddress := "0x1111111111111111111111111111111111111111"
    expiry := 9000000000000
    nonce := "n1" }

/-- A PENDING intent over 100 OCT, created at the sample oracle state. -/
def pendingIntent : Intent :=
  { intentId := "intent-1"
    direction := .OCT_TO_ETH
    sourceAddress := "octsender"
    sourceTxHash := "octtx1"
    amountIn := 100
    targetAddress := "0x1111111111111111111111111111111111111111"
    targetTxHash := none
    amountOut := none
    minAmountOut := 0
    status := .PENDING
    expiry := 9000000000000
    createdAt := 0
    fulfilledAt := none
    error := none
    payload := octPayload }

/-- The solver configuration with the source defaults. -/
def solverCfg : SolverConfig :=
  { octraEscrowAddress := "oct1escrow"
    sepoliaEscrowAddress := "0x00000000000000000000000000000000000000ee"
    feeBps := 50 }

/-- The sample oracle state after an unrelated 1000-OCT swap has drifted
the reserves. -/
def driftedOracle : OracleState :=
  recordSwap (fun _ => 0) defaultOracleConfig sampleOracleState 30000 .OCT_TO_ETH 1000

/-- C4 counterexample: the sweep re-attempting `pendingIntent` (created at
`sampleOracleState`) after the reserves drifted dispatches the re-quoted
amount, which differs from the output quoted at creation time — refuting
the claim that the original locked-in output is dispatched. -/
theorem C4_sweep_counterexample :
    (expiryCheckerTick solverCfg { intents := [pendingIntent], nonces := ["n1"] }
        driftedOracle 1000 1000 60000).dispatches
      = [("intent-1", .OCT_TO_ETH, calculateEthOut driftedOracle 100 solverCfg.feeBps)] ∧
    calculateEthOut driftedOracle 100 solverCfg.feeBps
      ≠ calculateEthOut sampleOracleState 100 solverCfg.feeBps := by
  refine ⟨by decide, by decide⟩

/-- Witness for the amended C4 at the same sweep tick. -/
theorem C4_sweep_requotes_witness :
    ∃ i, i ∈ [pendingIntent] ∧ i.status = .PENDING ∧ ¬ (60000:ℚ) > i.expiry ∧
      ("intent-1", SwapDirection.OCT_TO_ETH, calculateEthOut driftedOracle 100 solverCfg.feeBps)
        = (i.intentId, i.direction, sweepQuote solverCfg driftedOracle i) :=
  C4_sweep_requotes solverCfg { intents := [pendingIntent], nonces := ["n1"] }
    driftedOracle 1000 1000 60000
    ("intent-1", SwapDirection.OCT_TO_ETH, calculateEthOut driftedOracle 100 solverCfg.feeBps)
    (by decide)

/-- An ETH→OCT swap payload for the C5 scenario (0.1 ETH in). -/
def ethPayload : SwapIntentPayload :=
  { version := 1
    intentType := "swap"
    fromAsset := "ETH"
    toAsset := "OCT"
    amountIn := 1 / 10
    minAmountOut := 0
    targetChain := "octra_mainnet"
    targetAddress := "oct1dest"
    expiry := 9000000000000
    nonce := "n2" }

/-- An OPEN ETH→OCT intent over 0.1 ETH. -/
def ethToOctIntent : Intent :=
  { intentId := "intent-2"
    direction := .ETH_TO_OCT
    sourceAddress := "0xsender"
    sourceTxHash := "0xeth1"
    amountIn := 1 / 10
    targetAddress := "oct1dest"
    targetTxHash := none
    amountOut := none
    minAmountOut := 0
    status := .OPEN
    expiry := 9000000000000
    createdAt := 0
    fulfilledAt := none
    error := none
    payload := ethPayload }

/-- The OCT payout the submission path computes for the 0.1 ETH deposit. -/
def buggyOctOut : ℚ := calculateOctOut sampleOracleState (1 / 10) solverCfg.feeBps

/-- The fulfillment of that intent with a successful dispatch. -/
def buggyFulfill : FulfillOutcome :=
  fulfillEthToOct (fun _ => 0) defaultOracleConfig
    { intents := [ethToOctIntent], nonces := ["n2"] } sampleOracleState
    "intent-2" buggyOctOut 1000 { success := true, txHash := some "0xtxh", error := none }

/-- C5. Evaluating the ETH→OCT fulfillment at the failing input: the
intent transitions into FULFILLED and `recordSwap` is invoked exactly
once — but with the OCT *output* amount (`recordSwap('ETH_TO_OCT',
octOut)` in `fulfillEthToOct`), so the ETH-side virtual reserve grows by
the OCT output (> 99 units here) instead of by the intent's 0.1 ETH
input, contradicting both the claim and `recordSwap`'s own comment that
the amount passed for this direction is the ETH input. -/
theorem C5_recordSwap_amount_bug :
    (storeGet buggyFulfill.store "intent-2").map Intent.status = some .FULFILLED ∧
    buggyFulfill.swapsRecorded = [(.ETH_TO_OCT, buggyOctOut)] ∧
    buggyFulfill.oracle.reserves.ethReserve
      = sampleOracleState.reserves.ethReserve + buggyOctOut ∧
    buggyOctOut > 99 ∧
    buggyFulfill.oracle.reserves.ethReserve
      ≠ sampleOracleState.reserves.ethReserve + ethToOctIntent.amountIn := by
  refine ⟨by decide, by decide, by decide, by decide, by decide⟩

/-- The creation tail either rejects (store unchanged) or appends exactly
one row carrying the submitted source hash. -/
theorem ethToOctCreate_store_cases (cfg : SolverConfig) (db : Store) (oracle : OracleState)
    (tx : SepoliaTransaction) (bal now : ℚ) (newId hS : String)
    (intentData : EvmIntentData) (taddr : String) :
    (ethToOctCreate cfg db oracle tx bal now newId hS intentData taddr).store = db ∨
    (∃ i : Intent,
      (ethToOctCreate cfg db oracle tx bal now newId hS intentData taddr).store.intents
        = db.intents ++ [i] ∧ i.sourceTxHash = hS) := by
  simp only [ethToOctCreate]
  repeat' split
  all_goals first
    | exact Or.inl rfl
    | exact Or.inr ⟨_, rfl, rfl⟩

/-- The post-envelope pipeline: same store characterization. -/
theorem ethToOctVerified_store_cases (cfg : SolverConfig) (db : Store) (oracle : OracleState)
    (tx : SepoliaTransaction) (bal now : ℚ) (newId hS : String)
    (verifyResult : EvmVerifyResult) :
    (ethToOctVerified cfg db oracle tx bal now newId hS verifyResult).store = db ∨
    (∃ i : Intent,
      (ethToOctVerified cfg db oracle tx bal now newId hS verifyResult).store.intents
        = db.intents ++ [i] ∧ i.sourceTxHash = hS) := by
  simp only [ethToOctVerified]
  repeat' split
  all_goals first
    | exact Or.inl rfl
    | exact ethToOctCreate_store_cases cfg db oracle tx bal now newId hS _ _

/-- An ETH→OCT submission either leaves the store unchanged, or — only
when the source hash was unseen — appends exactly one row carrying it. -/
theorem processEth_store_cases (cfg : SolverConfig) (db : Store) (oracle : OracleState)
    (fetchedS : Option SepoliaTransaction) (balO now : ℚ) (newId hS : String) :
    (processEthToOctSubmission cfg db oracle fetchedS balO now newId hS).store = db ∨
    (getByTxHash db hS = none ∧ ∃ i : Intent,
      (processEthToOctSubmission cfg db oracle fetchedS balO now newId hS).store.intents
        = db.intents ++ [i] ∧ i.sourceTxHash = hS) := by
  simp only [processEthToOctSubmission]
  repeat' split
  all_goals first
    | exact Or.inl rfl
    | (rename_i tx _ _
       rcases ethToOctVerified_store_cases cfg db oracle tx balO now newId hS
         (parseAndVerifyEvmEnvelope (tx.input.getD "")) with h | h
       · exact Or.inl h
       · exact Or.inr ⟨by assumption, h⟩)

set_option maxHeartbeats 800000 in
/-- An OCT→ETH submission: same store characterization. -/
theorem processOct_store_cases (cfg : SolverConfig) (db : Store) (oracle : OracleState)
    (fetchedO : Option OctraTransaction) (balE now : ℚ) (newId hO : String) :
    (processOctToEthSubmission cfg db oracle fetchedO balE now newId hO).store = db ∨
    (getByTxHash db hO = none ∧ ∃ i : Intent,
      (processOctToEthSubmission cfg db oracle fetchedO balE now newId hO).store.intents
        = db.intents ++ [i] ∧ i.sourceTxHash = hO) := by
  simp only [processOctToEthSubmission]
  repeat' split
  all_goals first
    | exact Or.inl rfl
    | exact Or.inr ⟨by assumption, _, rfl, rfl⟩

/-- Appending a row whose source hash is unseen keeps the source hashes
pairwise distinct. -/
theorem map_hash_nodup_add (db : Store) (i : Intent) (h : String)
    (hnone : getByTxHash db h = none) (hhash : i.sourceTxHash = h)
    (hnodup : (db.intents.map Intent.sourceTxHash).Nodup) :
    ((db.intents ++ [i]).map Intent.sourceTxHash).Nodup := by
  rw [List.map_append]
  refine List.Nodup.append hnodup (List.nodup_singleton _) ?_
  intro x hx hxi
  simp only [List.map_cons, List.map_nil, List.mem_singleton] at hxi
  subst hxi
  rcases List.mem_map.mp hx with ⟨j, hj, hjx⟩
  have hj2 := List.find?_eq_none.mp hnone j hj
  simp only [decide_eq_true_eq] at hj2
  exact hj2 (by rw [hjx, hhash])

/-- C3. Submitting an already-seen source transaction hash, in either
direction, returns the stored intent's id and current status with the
store untouched and no fulfillment fired; and both submission paths
preserve pairwise distinctness of `sourceTxHash` across the store (a row
is only ever added under a fresh source hash). -/
theorem C3_dedup_and_unique_sourceTxHash (cfg : SolverConfig) (db : Store)
    (oracle : OracleState) (fetchedO : Option OctraTransaction)
    (fetchedS : Option SepoliaTransaction) (balE balO now : ℚ) (newId hO hS : String)
    (hnodup : (db.intents.map Intent.sourceTxHash).Nodup) :
    (∀ e, getByTxHash db hO = some e →
      processOctToEthSubmission cfg db oracle fetchedO balE now newId hO
        = ⟨⟨e.intentId, e.status, "Intent already submitted"⟩, db, none⟩) ∧
    (∀ e, getByTxHash db hS = some e →
      processEthToOctSubmission cfg db oracle fetchedS balO now newId hS
        = ⟨⟨e.intentId, e.status, "Intent already submitted"⟩, db, none⟩) ∧
    ((processOctToEthSubmission cfg db oracle fetchedO balE now newId hO).store.intents.map
      Intent.sourceTxHash).Nodup ∧
    ((processEthToOctSubmission cfg db oracle fetchedS balO now newId hS).store.intents.map
      Intent.sourceTxHash).Nodup := by
  refine ⟨?_, ?_, ?_, ?_⟩
  · intro e he
    simp only [processOctToEthSubmission, he]
  · intro e he
    simp only [processEthToOctSubmission, he]
  · rcases processOct_store_cases cfg db oracle fetchedO balE now newId hO with
      hsame | ⟨hnone, i, hint, hhash⟩
    · rw [hsame]; exact hnodup
    · rw [hint]; exact map_hash_nodup_add db i hO hnone hhash hnodup
  · rcases processEth_store_cases cfg db oracle fetchedS balO now newId hS with
      hsame | ⟨hnone, i, hint, hhash⟩
    · rw [hsame]; exact hnodup
    · rw [hint]; exact map_hash_nodup_add db i hS hnone hhash hnodup

/-- A one-intent store for concrete dedup scenarios. -/
def oneIntentStore : Store := { intents := [pendingIntent], nonces := ["n1"] }

/-- Witness for C3: resubmitting `octtx1` returns the stored PENDING
intent untouched, and a fresh-hash ETH→OCT submission keeps the source
hashes distinct. -/
theorem C3_dedup_and_unique_sourceTxHash_witness :
    processOctToEthSubmission solverCfg oneIntentStore sampleOracleState none 0 0 "id9" "octtx1"
      = ⟨⟨"intent-1", .PENDING, "Intent already submitted"⟩, oneIntentStore, none⟩ ∧
    ((processEthToOctSubmission solverCfg oneIntentStore sampleOracleState none 0 0 "id9"
      "0xnew").store.intents.map Intent.sourceTxHash).Nodup :=
  ⟨(C3_dedup_and_unique_sourceTxHash solverCfg oneIntentStore sampleOracleState none none
      0 0 0 "id9" "octtx1" "0xnew" (by decide)).1 pendingIntent (by decide),
   (C3_dedup_and_unique_sourceTxHash solverCfg oneIntentStore sampleOracleState none none
      0 0 0 "id9" "octtx1" "0xnew" (by decide)).2.2.2⟩

set_option maxHeartbeats 800000 in
/-- Rejection/acceptance characterization of the OCT→ETH path past the
dedup check. -/
theorem processOct_c9 (cfg : SolverConfig) (db : Store) (oracle : OracleState)
    (fetchedO : Option OctraTransaction) (balE now : ℚ) (newId hO : String)
    (h0 : getByTxHash db hO = none) :
    ((processOctToEthSubmission cfg db oracle fetchedO balE now newId hO).resp.status
        = .REJECTED →
      (processOctToEthSubmission cfg db oracle fetchedO balE now newId hO).resp.intentId = "" ∧
      (processOctToEthSubmission cfg db oracle fetchedO balE now newId hO).store = db ∧
      (processOctToEthSubmission cfg db oracle fetchedO balE now newId hO).dispatch = none) ∧
    ((processOctToEthSubmission cfg db oracle fetchedO balE now newId hO).resp.status
        ≠ .REJECTED →
      ∃ tx payload, fetchedO = some tx ∧ parseIntentPayload tx.message = some payload ∧
        (processOctToEthSubmission cfg db oracle fetchedO balE now newId hO).resp.intentId
          = newId ∧
        (processOctToEthSubmission cfg db oracle fetchedO balE now newId hO).resp.status
          = (if balE ≥ calculateEthOut oracle payload.amountIn cfg.feeBps * LIQUIDITY_BUFFER
             then IntentStatus.OPEN else IntentStatus.PENDING) ∧
        ∃ i, (processOctToEthSubmission cfg db oracle fetchedO balE now newId hO).store.intents
            = db.intents ++ [i] ∧
          i.status = (processOctToEthSubmission cfg db oracle fetchedO balE now
            newId hO).resp.status) := by
  simp only [processOctToEthSubmission, h0]
  repeat' split
  all_goals constructor
  all_goals intro h
  all_goals first
    | exact ⟨rfl, rfl, rfl⟩
    | exact absurd rfl h
    | exact ⟨_, _, rfl, by assumption, rfl, (if_pos (by assumption)).symm, _, rfl, rfl⟩
    | exact ⟨_, _, rfl, by assumption, rfl, (if_neg (by assumption)).symm, _, rfl, rfl⟩
    | simp at h

set_option maxHeartbeats 800000 in
/-- Rejection/acceptance characterization of the ETH→OCT creation tail. -/
theorem ethToOctCreate_c9 (cfg : SolverConfig) (db : Store) (oracle : OracleState)
    (tx : SepoliaTransaction) (bal now : ℚ) (newId hS : String)
    (intentData : EvmIntentData) (taddr : String) :
    ((ethToOctCreate cfg db oracle tx bal now newId hS intentData taddr).resp.status
        = .REJECTED →
      (ethToOctCreate cfg db oracle tx bal now newId hS intentData taddr).resp.intentId = "" ∧
      (ethToOctCreate cfg db oracle tx bal now newId hS intentData taddr).store = db ∧
      (ethToOctCreate cfg db oracle tx bal now newId hS intentData taddr).dispatch = none) ∧
    ((ethToOctCreate cfg db oracle tx bal now newId hS intentData taddr).resp.status
        ≠ .REJECTED →
      (ethToOctCreate cfg db oracle tx bal now newId hS intentData taddr).resp.intentId
        = newId ∧
      (ethToOctCreate cfg db oracle tx bal now newId hS intentData taddr).resp.status
        = (if bal ≥ calculateOctOut oracle (tx.value / 1000000000000000000) cfg.feeBps
              * LIQUIDITY_BUFFER
           then IntentStatus.OPEN else IntentStatus.PENDING) ∧
      ∃ i, (ethToOctCreate cfg db oracle tx bal now newId hS intentData
            taddr).store.intents = db.intents ++ [i] ∧
        i.status = (ethToOctCreate cfg db oracle tx bal now newId hS intentData
          taddr).resp.status) := by
  simp only [ethToOctCreate]
  repeat' split
  all_goals constructor
  all_goals intro h
  all_goals first
    | exact ⟨rfl, rfl, rfl⟩
    | exact absurd rfl h
    | exact ⟨rfl, (if_pos (by assumption)).symm, _, rfl, rfl⟩
    | exact ⟨rfl, (if_neg (by assumption)).symm, _, rfl, rfl⟩
    | exact ⟨rfl, by simp [*], _, rfl, rfl⟩
    | simp at h

set_option maxHeartbeats 800000 in
/-- Rejection/acceptance characterization of the post-envelope ETH→OCT
pipeline. -/
theorem ethToOctVerified_c9 (cfg : SolverConfig) (db : Store) (oracle : OracleState)
    (tx : SepoliaTransaction) (bal now : ℚ) (newId hS : String)
    (verifyResult : EvmVerifyResult) :
    ((ethToOctVerified cfg db oracle tx bal now newId hS verifyResult).resp.status
        = .REJECTED →
      (ethToOctVerified cfg db oracle tx bal now newId hS verifyResult).resp.intentId = "" ∧
      (ethToOctVerified cfg db oracle tx bal now newId hS verifyResult).store = db ∧
      (ethToOctVerified cfg db oracle tx bal now newId hS verifyResult).dispatch = none) ∧
    ((ethToOctVerified cfg db oracle tx bal now newId hS verifyResult).resp.status
        ≠ .REJECTED →
      (ethToOctVerified cfg db oracle tx bal now newId hS verifyResult).resp.intentId
        = newId ∧
      (ethToOctVerified cfg db oracle tx bal now newId hS verifyResult).resp.status
        = (if bal ≥ calculateOctOut oracle (tx.value / 1000000000000000000) cfg.feeBps
              * LIQUIDITY_BUFFER
           then IntentStatus.OPEN else IntentStatus.PENDING) ∧
      ∃ i, (ethToOctVerified cfg db oracle tx bal now newId hS
            verifyResult).store.intents = db.intents ++ [i] ∧
        i.status = (ethToOctVerified cfg db oracle tx bal now newId hS
          verifyResult).resp.status) := by
  simp only [ethToOctVerified]
  repeat'
    first
      | exact ethToOctCreate_c9 cfg db oracle tx bal now newId hS _ _
      | exact ⟨fun _ => ⟨rfl, rfl, rfl⟩, fun h => absurd rfl h⟩
      | split

set_option maxHeartbeats 1600000 in
/-- Rejection/acceptance characterization of the full ETH→OCT submission
past the dedup check. -/
theorem processEth_c9 (cfg : SolverConfig) (db : Store) (oracle : OracleState)
    (fetchedS : Option SepoliaTransaction) (balO now : ℚ) (newId hS : String)
    (h0 : getByTxHash db hS = none) :
    ((processEthToOctSubmission cfg db oracle fetchedS balO now newId hS).resp.status
        = .REJECTED →
      (processEthToOctSubmission cfg db oracle fetchedS balO now newId hS).resp.intentId
        = "" ∧
      (processEthToOctSubmission cfg db oracle fetchedS balO now newId hS).store = db ∧
      (processEthToOctSubmission cfg db oracle fetchedS balO now newId hS).dispatch = none) ∧
    ((processEthToOctSubmission cfg db oracle fetchedS balO now newId hS).resp.status
        ≠ .REJECTED →
      ∃ tx, fetchedS = some tx ∧
        (processEthToOctSubmission cfg db oracle fetchedS balO now newId hS).resp.intentId
          = newId ∧
        (processEthToOctSubmission cfg db oracle fetchedS balO now newId hS).resp.status
          = (if balO ≥ calculateOctOut oracle (tx.value / 1000000000000000000) cfg.feeBps
                * LIQUIDITY_BUFFER
             then IntentStatus.OPEN else IntentStatus.PENDING) ∧
        ∃ i, (processEthToOctSubmission cfg db oracle fetchedS balO now
              newId hS).store.intents = db.intents ++ [i] ∧
          i.status = (processEthToOctSubmission cfg db oracle fetchedS balO now
            newId hS).resp.status) := by
  simp only [processEthToOctSubmission, h0]
  repeat' split
  all_goals first
    | exact ⟨fun _ => ⟨rfl, rfl, rfl⟩, fun h => absurd rfl h⟩
    | (rename_i tx _ _
       refine ⟨fun h => (ethToOctVerified_c9 cfg db oracle tx balO now newId hS
         (parseAndVerifyEvmEnvelope (tx.input.getD ""))).1 h, fun h => ?_⟩
       obtain ⟨h1, h2, h3⟩ := (ethToOctVerified_c9 cfg db oracle tx balO now newId hS
         (parseAndVerifyEvmEnvelope (tx.input.getD ""))).2 h
       exact ⟨tx, rfl, h1, h2, h3⟩)

/-- C9: every submission (in either direction) that fails any validation
step past the dedup check returns status REJECTED with an empty intentId,
leaves the store untouched (no intent row, no nonce) and dispatches no
transfer; a non-REJECTED outcome implies the fetched deposit transaction
exists (with, on the Octra path, a parsed payload) and exactly one intent
row is appended, whose status — echoed in the response — is OPEN or PENDING
according to the immediate liquidity probe against the quoted output times
the liquidity buffer. -/
theorem C9_reject_synchronous (cfg : SolverConfig) (db : Store) (oracle : OracleState)
    (fetchedO : Option OctraTransaction) (fetchedS : Option SepoliaTransaction)
    (balE balO now : ℚ) (newId hO hS : String)
    (hO0 : getByTxHash db hO = none) (hS0 : getByTxHash db hS = none) :
    (((processOctToEthSubmission cfg db oracle fetchedO balE now newId hO).resp.status
        = .REJECTED →
      (processOctToEthSubmission cfg db oracle fetchedO balE now newId hO).resp.intentId
        = "" ∧
      (processOctToEthSubmission cfg db oracle fetchedO balE now newId hO).store = db ∧
      (processOctToEthSubmission cfg db oracle fetchedO balE now newId hO).dispatch = none) ∧
    ((processOctToEthSubmission cfg db oracle fetchedO balE now newId hO).resp.status
        ≠ .REJECTED →
      ∃ tx payload, fetchedO = some tx ∧ parseIntentPayload tx.message = some payload ∧
        (processOctToEthSubmission cfg db oracle fetchedO balE now newId hO).resp.intentId
          = newId ∧
        (processOctToEthSubmission cfg db oracle fetchedO balE now newId hO).resp.status
          = (if balE ≥ calculateEthOut oracle payload.amountIn cfg.feeBps * LIQUIDITY_BUFFER
             then IntentStatus.OPEN else IntentStatus.PENDING) ∧
        ∃ i, (processOctToEthSubmission cfg db oracle fetchedO balE now
              newId hO).store.intents = db.intents ++ [i] ∧
          i.status = (processOctToEthSubmission cfg db oracle fetchedO balE now
            newId hO).resp.status)) ∧
    (((processEthToOctSubmission cfg db oracle fetchedS balO now newId hS).resp.status
        = .REJECTED →
      (processEthToOctSubmission cfg db oracle fetchedS balO now newId hS).resp.intentId
        = "" ∧
      (processEthToOctSubmission cfg db oracle fetchedS balO now newId hS).store = db ∧
      (processEthToOctSubmission cfg db oracle fetchedS balO now newId hS).dispatch = none) ∧
    ((processEthToOctSubmission cfg db oracle fetchedS balO now newId hS).resp.status
        ≠ .REJECTED →
      ∃ tx, fetchedS = some tx ∧
        (processEthToOctSubmission cfg db oracle fetchedS balO now newId hS).resp.intentId
          = newId ∧
        (processEthToOctSubmission cfg db oracle fetchedS balO now newId hS).resp.status
          = (if balO ≥ calculateOctOut oracle (tx.value / 1000000000000000000) cfg.feeBps
                * LIQUIDITY_BUFFER
             then IntentStatus.OPEN else IntentStatus.PENDING) ∧
        ∃ i, (processEthToOctSubmission cfg db oracle fetchedS balO now
              newId hS).store.intents = db.intents ++ [i] ∧
          i.status = (processEthToOctSubmission cfg db oracle fetchedS balO now
            newId hS).resp.status)) :=
  ⟨processOct_c9 cfg db oracle fetchedO balE now newId hO hO0,
   processEth_c9 cfg db oracle fetchedS balO now newId hS hS0⟩

/-- Witness for C9: against an empty store, a submission whose deposit
transaction cannot be fetched is REJECTED in both directions and the store
stays empty. -/
theorem C9_reject_synchronous_witness :
    getByTxHash (⟨[], []⟩ : Store) "h1" = none ∧
    getByTxHash (⟨[], []⟩ : Store) "h2" = none ∧
    (processOctToEthSubmission solverCfg ⟨[], []⟩ sampleOracleState none 0 0
        "id9a" "h1").store = (⟨[], []⟩ : Store) ∧
    (processEthToOctSubmission solverCfg ⟨[], []⟩ sampleOracleState none 0 0
        "id9a" "h2").store = (⟨[], []⟩ : Store) :=
  ⟨rfl, rfl,
   ((C9_reject_synchronous solverCfg ⟨[], []⟩ sampleOracleState none none 0 0 0
      "id9a" "h1" "h2" rfl rfl).1.1 rfl).2.1,
   ((C9_reject_synchronous solverCfg ⟨[], []⟩ sampleOracleState none none 0 0 0
      "id9a" "h1" "h2" rfl rfl).2.1 rfl).2.1⟩

/-- On a duplicate source hash the OCT→ETH submission returns the stored
intent's data and leaves the store untouched. -/
theorem processOct_dup_store (cfg : SolverConfig) (db : Store) (oracle : OracleState)
    (fetchedO : Option OctraTransaction) (balE now : ℚ) (newId hO : String) (e : Intent)
    (h : getByTxHash db hO = some e) :
    (processOctToEthSubmission cfg db oracle fetchedO balE now newId hO).store = db := by
  simp only [processOctToEthSubmission, h]

/-- On a duplicate source hash the ETH→OCT submission returns the stored
intent's data and leaves the store untouched. -/
theorem processEth_dup_store (cfg : SolverConfig) (db : Store) (oracle : OracleState)
    (fetchedS : Option SepoliaTransaction) (balO now : ℚ) (newId hS : String) (e : Intent)
    (h : getByTxHash db hS = some e) :
    (processEthToOctSubmission cfg db oracle fetchedS balO now newId hS).store = db := by
  simp only [processEthToOctSubmission, h]

/-- C10: the nonce set is written only inside `IntentStore.add`, together
with the intent row (conjunct 1: `storeAdd` appends the row and inserts its
payload nonce, nothing else); a submission answering REJECTED leaves the
nonce set — hence every `isNonceUsed` check — exactly as it was, in both
directions; and whenever a submission changes the nonce set at all, an
intent row was appended by the same call. -/
theorem C10_rejection_preserves_nonces (cfg : SolverConfig) (db : Store)
    (oracle : OracleState) (fetchedO : Option OctraTransaction)
    (fetchedS : Option SepoliaTransaction) (balE balO now : ℚ) (newId hO hS : String) :
    (∀ (st : Store) (i : Intent),
      (storeAdd st i).nonces = (if st.nonces.contains i.payload.nonce then st.nonces
        else st.nonces ++ [i.payload.nonce]) ∧
      ∃ j, (storeAdd st i).intents = st.intents ++ [j] ∧ j.payload = i.payload) ∧
    ((processOctToEthSubmission cfg db oracle fetchedO balE now newId hO).resp.status
        = .REJECTED →
      (processOctToEthSubmission cfg db oracle fetchedO balE now newId hO).store.nonces
        = db.nonces ∧
      ∀ n, isNonceUsed (processOctToEthSubmission cfg db oracle fetchedO balE now
          newId hO).store n = isNonceUsed db n) ∧
    ((processOctToEthSubmission cfg db oracle fetchedO balE now newId hO).store.nonces
        ≠ db.nonces →
      ∃ i, (processOctToEthSubmission cfg db oracle fetchedO balE now
        newId hO).store.intents = db.intents ++ [i]) ∧
    ((processEthToOctSubmission cfg db oracle fetchedS balO now newId hS).resp.status
        = .REJECTED →
      (processEthToOctSubmission cfg db oracle fetchedS balO now newId hS).store.nonces
        = db.nonces ∧
      ∀ n, isNonceUsed (processEthToOctSubmission cfg db oracle fetchedS balO now
          newId hS).store n = isNonceUsed db n) ∧
    ((processEthToOctSubmission cfg db oracle fetchedS balO now newId hS).store.nonces
        ≠ db.nonces →
      ∃ i, (processEthToOctSubmission cfg db oracle fetchedS balO now
        newId hS).store.intents = db.intents ++ [i]) := by
  refine ⟨fun st i => ⟨rfl, _, rfl, rfl⟩, ?_, ?_, ?_, ?_⟩
  · intro h
    cases hfetch : getByTxHash db hO with
    | none =>
        rw [((processOct_c9 cfg db oracle fetchedO balE now newId hO hfetch).1 h).2.1]
        exact ⟨rfl, fun n => rfl⟩
    | some e =>
        rw [processOct_dup_store cfg db oracle fetchedO balE now newId hO e hfetch]
        exact ⟨rfl, fun n => rfl⟩
  · intro h
    rcases processOct_store_cases cfg db oracle fetchedO balE now newId hO with hc | hc
    · exact absurd (by rw [hc]) h
    · exact ⟨_, hc.2.choose_spec.1⟩
  · intro h
    cases hfetch : getByTxHash db hS with
    | none =>
        rw [((processEth_c9 cfg db oracle fetchedS balO now newId hS hfetch).1 h).2.1]
        exact ⟨rfl, fun n => rfl⟩
    | some e =>
        rw [processEth_dup_store cfg db oracle fetchedS balO now newId hS e hfetch]
        exact ⟨rfl, fun n => rfl⟩
  · intro h
    rcases processEth_store_cases cfg db oracle fetchedS balO now newId hS with hc | hc
    · exact absurd (by rw [hc]) h
    · exact ⟨_, hc.2.choose_spec.1⟩

/-- Witness for C10: the REJECTED submissions of the C9 scenario leave the
empty nonce set empty, and a nonce lookup afterwards answers as before. -/
theorem C10_rejection_preserves_nonces_witness :
    (processOctToEthSubmission solverCfg ⟨[], []⟩ sampleOracleState none 0 0
        "id10" "h3").store.nonces = ([] : List String) ∧
    isNonceUsed (processEthToOctSubmission solverCfg ⟨[], []⟩ sampleOracleState none 0 0
        "id10" "h4").store "n-0001" = isNonceUsed (⟨[], []⟩ : Store) "n-0001" :=
  ⟨((C10_rejection_preserves_nonces solverCfg ⟨[], []⟩ sampleOracleState none none 0 0 0
      "id10" "h3" "h4").2.1 rfl).1,
   ((C10_rejection_preserves_nonces solverCfg ⟨[], []⟩ sampleOracleState none none 0 0 0
      "id10" "h3" "h4").2.2.2.1 rfl).2 "n-0001"⟩

/-! ## C2: where the declared payload hash is (and is not) verified -/

/-- A well-formed OCT→ETH memo envelope: the declared hash is the SHA-256
of the canonical JSON of the payload object. -/
def octMemo1 : String :=
  "\x7b\"payload\":\x7b\"version\":1,\"intentType\":\"swap\",\"fromAsset\":\"OCT\",\"toAsset\":\"ETH\",\"amountIn\":5,\"minAmountOut\":0,\"targetChain\":\"ethereum_sepolia\",\"targetAddress\":\"0x00000000000000000000000000000000000000aa\",\"expiry\":2000000000000,\"nonce\":\"n-0001\"\x7d,\"hash\":\"371eece0029b79fb753a39cf56bf10b23e3b12f9072c42056c99cbbb8f3b2856\"\x7d"

/-- `octMemo1` with a single byte of the encoded payload changed
(`amountIn` 5 → 7) while keeping the original declared hash, which is now
stale. -/
def octMemo2 : String :=
  "\x7b\"payload\":\x7b\"version\":1,\"intentType\":\"swap\",\"fromAsset\":\"OCT\",\"toAsset\":\"ETH\",\"amountIn\":7,\"minAmountOut\":0,\"targetChain\":\"ethereum_sepolia\",\"targetAddress\":\"0x00000000000000000000000000000000000000aa\",\"expiry\":2000000000000,\"nonce\":\"n-0001\"\x7d,\"hash\":\"371eece0029b79fb753a39cf56bf10b23e3b12f9072c42056c99cbbb8f3b2856\"\x7d"

def octEnv1 : Json := (jsonParse octMemo1).getD Json.null

def octEnv2 : Json := (jsonParse octMemo2).getD Json.null

set_option maxRecDepth 1000000 in
/-- C2 counterexample: the Octra memo path performs no hash verification.
`octMemo2` differs from the well-formed `octMemo1` in exactly one byte of
the encoded payload while keeping the original hash — the declared hash
matches the payload of `octMemo1` and no longer matches that of `octMemo2`
— yet `parseIntentPayload`, the only envelope scrutiny on the Octra
submission path, accepts both memos, delivering the tampered
`amountIn = 7` instead of failing with a tamper error. -/
theorem C2_octra_path_skips_hash_counterexample :
    octMemo1.length = octMemo2.length ∧
    ((octMemo1.toList.zip octMemo2.toList).countP (fun p => p.1 != p.2)) = 1 ∧
    verifyPayloadHashJson (jsOr (jsGet octEnv1 "payload") octEnv1)
      ((jsGet octEnv1 "hash").getD Json.null) = true ∧
    verifyPayloadHashJson (jsOr (jsGet octEnv2 "payload") octEnv2)
      ((jsGet octEnv2 "hash").getD Json.null) = false ∧
    parseIntentPayload (some octMemo1)
      = some ⟨1, "swap", "OCT", "ETH", 5, 0, "ethereum_sepolia",
          "0x00000000000000000000000000000000000000aa", 2000000000000, "n-0001"⟩ ∧
    parseIntentPayload (some octMemo2)
      = some ⟨1, "swap", "OCT", "ETH", 7, 0, "ethereum_sepolia",
          "0x00000000000000000000000000000000000000aa", 2000000000000, "n-0001"⟩ :=
  ⟨rfl, by decide, by decide, by decide, by decide, by decide⟩

/-- C2 (amended): hash verification happens only on the EVM `tx.input`
path. Past the calldata guard, with a decoded envelope: when the envelope
carries a truthy `hash` field the verifier accepts exactly when the
recomputed SHA-256 of the canonical JSON of the *reconstructed* payload
(hard-coded `version`/`intentType`, defaulted `fromAsset`/`toAsset`/
`targetChain`) equals the declared hash, and otherwise fails with the
tamper error; an envelope with no (truthy) hash field skips the check
entirely (legacy compatibility). On the Octra memo path, by contrast,
`parseIntentPayload` is a function of the effective payload object alone:
two memos with identical payloads but arbitrary (e.g. mismatched) declared
hashes parse identically — no hash is ever checked there. -/
theorem C2_hash_check_evm_only (t : String) (env : Json)
    (hguard : ¬ (t = "" ∨ t = "0x" ∨ t.length < 4))
    (hdec : evmDecodeEnvelope t = some env) :
    (jsTruthyOpt (jsGet env "hash") = true →
      (verifyPayloadHashJson (reconstructFullPayload (jsOr (jsGet env "payload") env))
          ((jsGet env "hash").getD Json.null) = true →
        parseAndVerifyEvmEnvelope t = evmFieldCheck (jsOr (jsGet env "payload") env)) ∧
      (verifyPayloadHashJson (reconstructFullPayload (jsOr (jsGet env "payload") env))
          ((jsGet env "hash").getD Json.null) = false →
        parseAndVerifyEvmEnvelope t =
          ⟨false, none, some "Payload hash mismatch - data may have been tampered"⟩)) ∧
    (jsTruthyOpt (jsGet env "hash") = false →
      parseAndVerifyEvmEnvelope t = evmFieldCheck (jsOr (jsGet env "payload") env)) ∧
    (∀ (m₁ m₂ : String) (p₁ p₂ : Json), jsonParse m₁ = some p₁ → jsonParse m₂ = some p₂ →
      jsOr (jsGet p₁ "payload") p₁ = jsOr (jsGet p₂ "payload") p₂ →
      parseIntentPayload (some m₁) = parseIntentPayload (some m₂)) := by
  refine ⟨fun htr => ⟨fun hv => ?_, fun hv => ?_⟩, fun htr => ?_, ?_⟩
  · simp only [parseAndVerifyEvmEnvelope, if_neg hguard, hdec, htr, hv, if_true]
  · simp only [parseAndVerifyEvmEnvelope, if_neg hguard, hdec, htr, hv,
      Bool.false_eq_true, if_false, if_true]
  · simp only [parseAndVerifyEvmEnvelope, if_neg hguard, hdec, htr,
      Bool.false_eq_true, if_false]
  · intro m₁ m₂ p₁ p₂ h₁ h₂ hp
    simp only [parseIntentPayload, h₁, h₂, hp]

/-- A legacy EVM envelope: hex-encoded raw JSON with no `hash` member. -/
def legacyHexInput : String :=
  "0x7b2274617267657441646472657373223a226f63743164657374222c226d696e416d6f756e744f7574223a312c22657870697279223a322c226e6f6e6365223a226e2d6c227d"

/-- The decoded legacy envelope (the decoder output itself; the concrete
shape is pinned down by the witness facts below). -/
def legacyEnv : Json := (evmDecodeEnvelope legacyHexInput).getD Json.null

/-- An option known (computably) to be `some` equals `some` of its
`getD`-extraction. -/
theorem option_eq_some_getD {α : Type} (o : Option α) (d : α) (h : o.isSome = true) :
    o = some (o.getD d) := by
  cases o
  · simp at h
  · rfl

set_option maxRecDepth 1000000 in
/-- The concrete legacy envelope decodes. -/
theorem legacyEnv_decode : evmDecodeEnvelope legacyHexInput = some legacyEnv :=
  option_eq_some_getD _ _ (by decide)

set_option maxRecDepth 1000000 in
/-- Witness for C2: the concrete legacy envelope passes the calldata
guard, decodes, carries no hash, and is accepted without any hash check. -/
theorem C2_hash_check_evm_only_witness :
    ¬ (legacyHexInput = "" ∨ legacyHexInput = "0x" ∨ legacyHexInput.length < 4) ∧
    evmDecodeEnvelope legacyHexInput = some legacyEnv ∧
    jsTruthyOpt (jsGet legacyEnv "hash") = false ∧
    parseAndVerifyEvmEnvelope legacyHexInput
      = evmFieldCheck (jsOr (jsGet legacyEnv "payload") legacyEnv) :=
  ⟨by decide, legacyEnv_decode, by decide,
   (C2_hash_check_evm_only legacyHexInput legacyEnv (by decide) legacyEnv_decode).2.1
     (by decide)⟩
